import Mathlib

/-!
Verification of the relationship-closure and diagram-synthesis engine.

Part 1 embeds the declarative diagram AST and its PlantUML renderer
(source file `src/extensions/score_metamodel/diagram.py`).
Part 2 embeds the recursive closure engine and diagram synthesizer
(source file `src/extensions/score_draw_uml_funcs/__init__.py`).

Conventions of the shallow embedding:
- Python `dict[str, T]` becomes an insertion-ordered association list
  `List (String × T)`; lookup returns the first matching entry, insertion
  of a fresh key appends at the end, update rewrites the entry in place.
- Python `str` becomes `String`; string operations that do not kernel-reduce
  in Lean (ordering, replace) are re-implemented structurally on `.data`.
- Python exceptions become either `Except String _` results or a pair
  `Option String × State` (error message, state at the moment of the raise),
  translated statement by statement so that partial mutation before a raise
  would be visible.
- Functions whose Python originals recurse over graph edges (and hence may
  diverge on cyclic graphs) take an explicit fuel parameter and return
  `Option`; `none` means the recursion did not complete within the fuel.
-/

/-! ### Character/string ordering utilities (kernel-reducible) -/

/-- Strict lexicographic order on char lists, comparing code points. -/
def charListLt : List Char → List Char → Bool
  | [], [] => false
  | [], _ :: _ => true
  | _ :: _, [] => false
  | a :: as, b :: bs =>
    a.toNat < b.toNat || (a.toNat = b.toNat && charListLt as bs)

/-- Strict lexicographic order on strings (kernel-reducible stand-in for `<`). -/
def strLt (a b : String) : Bool := charListLt a.data b.data

/-- Reflexive lexicographic order on strings. -/
def strLe (a b : String) : Bool := strLt a b || a == b


/-! ### Part 1: the declarative diagram AST (`score_metamodel/diagram.py`) -/

/-- Member visibility markers (class `Visibility` of the source). -/
inductive Visibility where
  | PUBLIC
  | PRIVATE
  | PROTECTED
  | PACKAGE
deriving DecidableEq, Repr

/-- Textual value of a visibility marker (the `str` value of the enum). -/
def Visibility.value : Visibility → String
  | .PUBLIC => "+"
  | .PRIVATE => "-"
  | .PROTECTED => "#"
  | .PACKAGE => "~"

/-- Relation kinds (class `RelationKind` of the source). -/
inductive RelationKind where
  | ASSOCIATION
  | UNDIRECTED
  | INHERITANCE
  | IMPLEMENTS
  | DEPENDENCY
  | COMPOSITION
  | AGGREGATION
deriving DecidableEq, Repr

/-- Textual value of a relation kind (the `str` value of the enum). -/
def RelationKind.value : RelationKind → String
  | .ASSOCIATION => "association"
  | .UNDIRECTED => "undirected"
  | .INHERITANCE => "inheritance"
  | .IMPLEMENTS => "implements"
  | .DEPENDENCY => "dependency"
  | .COMPOSITION => "composition"
  | .AGGREGATION => "aggregation"

/-- Dataclass `Member`. -/
structure Member where
  name : String
  visibility : Visibility
  type_hint : Option String
deriving DecidableEq, Repr

/-- Dataclass `ClassNode`. -/
structure ClassNode where
  name : String
  stereotype : Option String
  members : List Member
deriving DecidableEq, Repr

/-- Dataclass `Relation`. -/
structure Relation where
  src : String
  dst : String
  kind : RelationKind
  label : Option String
deriving DecidableEq, Repr

/-- Dataclass `ClassDiagram`: `classes` is the insertion-ordered dict from
class name to node, `relations` the ordered relation list. -/
structure ClassDiagram where
  classes : List (String × ClassNode)
  relations : List Relation
deriving DecidableEq, Repr

/-- The empty diagram (dataclass defaults). -/
def ClassDiagram.empty : ClassDiagram := { classes := [], relations := [] }

/-- Lookup in the `classes` dict (`self.classes.get(name)`). -/
def ClassDiagram.getClass (d : ClassDiagram) (name : String) : Option ClassNode :=
  (d.classes.find? (fun p => p.1 = name)).map (fun p => p.2)

/-- In-place update of the node stored under a key of the `classes` dict. -/
def updateClass (cs : List (String × ClassNode)) (name : String)
    (f : ClassNode → ClassNode) : List (String × ClassNode) :=
  cs.map (fun p => if p.1 = name then (p.1, f p.2) else p)

/-- Method `ClassDiagram._ensure_class`: validates the name, then returns the
existing node or inserts a fresh one; an existing node without a stereotype
acquires the given one.  The first component is the raised error, if any;
the second is the diagram state at the moment the method returns or raises. -/
def ensure_class (d : ClassDiagram) (name : String) (stereotype : Option String) :
    Option String × ClassDiagram :=
  if name = "" then (some "class name must not be empty", d)
  else
    match d.getClass name with
    | none =>
      (none, { d with
        classes := d.classes ++ [(name, ⟨name, stereotype, []⟩)] })
    | some node =>
      match stereotype, node.stereotype with
      | some s, none =>
        let f : ClassNode → ClassNode := fun n => { n with stereotype := some s }
        (none, { d with classes := updateClass d.classes name f })
      | _, _ => (none, d)

/-- Method `ClassDiagram.add_class`. -/
def add_class (d : ClassDiagram) (name : String) (stereotype : Option String) :
    Option String × ClassDiagram :=
  ensure_class d name stereotype

/-- Method `ClassDiagram.add_member`: validates the member name, ensures the
class exists, then appends the member to that class. -/
def add_member (d : ClassDiagram) (class_name member_name : String)
    (visibility : Visibility) (type_hint : Option String) :
    Option String × ClassDiagram :=
  if member_name = "" then (some "member name must not be empty", d)
  else
    match ensure_class d class_name none with
    | (some e, d') => (some e, d')
    | (none, d') =>
      let f : ClassNode → ClassNode := fun n =>
        { n with members := n.members ++ [⟨member_name, visibility, type_hint⟩] }
      (none, { d' with classes := updateClass d'.classes class_name f })

/-- Method `ClassDiagram.relate`: validates both endpoints, ensures both
classes exist, then appends the relation. -/
def relate (d : ClassDiagram) (src dst : String) (kind : RelationKind)
    (label : Option String) : Option String × ClassDiagram :=
  if src = "" ∨ dst = "" then (some "relation endpoints must not be empty", d)
  else
    match ensure_class d src none with
    | (some e, d₁) => (some e, d₁)
    | (none, d₁) =>
      match ensure_class d₁ dst none with
      | (some e, d₂) => (some e, d₂)
      | (none, d₂) =>
        (none, { d₂ with relations := d₂.relations ++ [⟨src, dst, kind, label⟩] })

/-! ### Alias allocation (`PlantUmlRenderer._AliasMap`) -/

/-- Predicate of the regex `[A-Za-z0-9_]` (`VALID_CHARS` of `_sanitize`). -/
def VALID_CHAR (c : Char) : Bool := c.isAlphanum || c = '_'

/-- Strip leading and trailing underscores (`.strip("_")`). -/
def strip_underscores (l : List Char) : List Char :=
  ((l.dropWhile (fun c => c = '_')).reverse.dropWhile (fun c => c = '_')).reverse

/-- Method `_AliasMap._sanitize`: keep letters, digits and underscores,
replace every other character by an underscore, strip underscores at both
ends; raise when the result is empty. -/
def sanitize (name : String) : Except String String :=
  let chars := name.data.map (fun ch => if VALID_CHAR ch then ch else '_')
  let a := String.mk (strip_underscores chars)
  if a = "" then .error ("Cannot create alias for name: " ++ name) else .ok a

/-- State of `_AliasMap`: the memo dict `_map` and the set `_used`
(insertion-ordered, membership is the only observation). -/
structure AliasMap where
  map : List (String × String)
  used : List String
deriving DecidableEq, Repr

/-- Fresh alias map (`_AliasMap.__init__`). -/
def AliasMap.empty : AliasMap := { map := [], used := [] }

/-- Method `_AliasMap._create_alias`: sanitize, then walk the candidate
sequence `base, base_2, base_3, …` until one is not yet used.  The Python
`while` loop is rendered as the first fresh candidate among the first
`used.length + 2` ones: the candidates are pairwise distinct, so a fresh
one always exists within that range and the fallback branch is unreachable. -/
def AliasMap.create_alias (m : AliasMap) (name : String) :
    Except String (String × AliasMap) :=
  match sanitize name with
  | .error e => .error e
  | .ok base =>
    let cands :=
      base :: (List.range (m.used.length + 1)).map
        (fun k => base ++ "_" ++ Nat.repr (k + 2))
    match cands.find? (fun c => !(m.used.contains c)) with
    | some a => .ok (a, { m with used := m.used ++ [a] })
    | none => .ok (base, { m with used := m.used ++ [base] })

/-- Method `_AliasMap.__getitem__`: memoized alias lookup; a missing name is
allocated via `_create_alias` and recorded in the memo dict. -/
def AliasMap.getItem (m : AliasMap) (name : String) :
    Except String (String × AliasMap) :=
  match m.map.find? (fun p => p.1 = name) with
  | some p => .ok (p.2, m)
  | none =>
    match m.create_alias name with
    | .error e => .error e
    | .ok (a, m') => .ok (a, { m' with map := m'.map ++ [(name, a)] })

/-! ### PlantUML renderer (`PlantUmlRenderer`) -/

/-- Arrow tokens (`PlantUmlRenderer._ARROWS`). -/
def ARROWS : RelationKind → String
  | .ASSOCIATION => "-->"
  | .UNDIRECTED => "--"
  | .INHERITANCE => "<|--"
  | .IMPLEMENTS => "<|.."
  | .DEPENDENCY => "..>"
  | .COMPOSITION => "*--"
  | .AGGREGATION => "o--"

/-- Replace every double quote by a backslash-escaped quote
(`text.replace('"', r'\"')`). -/
def esc_quote_chars : List Char → List Char
  | [] => []
  | c :: cs => (if c = '"' then ['\x5c', '"'] else [c]) ++ esc_quote_chars cs

/-- Static method `PlantUmlRenderer._quote`. -/
def pu_quote (text : String) : String :=
  "\"" ++ String.mk (esc_quote_chars text.data) ++ "\""

/-- Character-wise body of `_escape_label` (the three sequential
single-character replaces commute into one pass). -/
def esc_label_chars : List Char → List Char
  | [] => []
  | c :: cs =>
    (if c = '\n' ∨ c = '\x0d' then [' ']
     else if c = ':' then ['\x5c', ':'] else [c]) ++ esc_label_chars cs

/-- Static method `PlantUmlRenderer._escape_label`. -/
def escape_label (text : String) : String := String.mk (esc_label_chars text.data)

/-- Newline and carriage return to spaces (first two replaces of
`_escape_stereotype`). -/
def esc_nl_chars : List Char → List Char
  | [] => []
  | c :: cs => (if c = '\n' ∨ c = '\x0d' then ' ' else c) :: esc_nl_chars cs

/-- Replace `<<` by `< <`, scanning left to right (`.replace("<<", "< <")`). -/
def esc_lt_chars : List Char → List Char
  | '<' :: '<' :: cs => '<' :: ' ' :: '<' :: esc_lt_chars cs
  | c :: cs => c :: esc_lt_chars cs
  | [] => []

/-- Replace `>>` by `> >`, scanning left to right (`.replace(">>", "> >")`). -/
def esc_gt_chars : List Char → List Char
  | '>' :: '>' :: cs => '>' :: ' ' :: '>' :: esc_gt_chars cs
  | c :: cs => c :: esc_gt_chars cs
  | [] => []

/-- Static method `PlantUmlRenderer._escape_stereotype` (the four replaces
applied in source order). -/
def escape_stereotype (text : String) : String :=
  String.mk (esc_gt_chars (esc_lt_chars (esc_nl_chars text.data)))

/-- Lines of one class block of `PlantUmlRenderer.render`, threading the
alias map (first loop body of `render`). -/
def render_class_lines (m : AliasMap) (c : ClassNode) :
    Except String (List String × AliasMap) :=
  match m.getItem c.name with
  | .error e => .error e
  | .ok (cid, m') =>
    let display := pu_quote c.name
    let headLine :=
      match c.stereotype with
      | some s =>
        if s = "" then "class " ++ cid ++ " as " ++ display ++ " \x7b"
        else
          "class " ++ cid ++ " as " ++ display ++ " <<" ++
            escape_stereotype s ++ ">> \x7b"
      | none => "class " ++ cid ++ " as " ++ display ++ " \x7b"
    let memberLines := c.members.map (fun mem =>
      match mem.type_hint with
      | some t =>
        if t = "" then "  " ++ mem.visibility.value ++ " " ++ mem.name
        else "  " ++ mem.visibility.value ++ " " ++ mem.name ++ " : " ++ t
      | none => "  " ++ mem.visibility.value ++ " " ++ mem.name)
    .ok (headLine :: memberLines ++ ["\x7d"], m')

/-- First loop of `render` over the sorted class list. -/
def render_classes : AliasMap → List ClassNode →
    Except String (List String × AliasMap)
  | m, [] => .ok ([], m)
  | m, c :: cs =>
    match render_class_lines m c with
    | .error e => .error e
    | .ok (ls, m') =>
      match render_classes m' cs with
      | .error e => .error e
      | .ok (ls', m'') => .ok (ls ++ ls', m'')

/-- One relation line of `render` (second loop body), threading the alias map. -/
def render_relation_line (m : AliasMap) (r : Relation) :
    Except String (String × AliasMap) :=
  match m.getItem r.src with
  | .error e => .error e
  | .ok (s, m₁) =>
    match m₁.getItem r.dst with
    | .error e => .error e
    | .ok (t, m₂) =>
      let arrow := ARROWS r.kind
      match r.label with
      | some l =>
        if l = "" then .ok (s ++ " " ++ arrow ++ " " ++ t, m₂)
        else .ok (s ++ " " ++ arrow ++ " " ++ t ++ " : " ++ escape_label l, m₂)
      | none => .ok (s ++ " " ++ arrow ++ " " ++ t, m₂)

/-- Second loop of `render` over the sorted relation list. -/
def render_relations : AliasMap → List Relation →
    Except String (List String × AliasMap)
  | m, [] => .ok ([], m)
  | m, r :: rs =>
    match render_relation_line m r with
    | .error e => .error e
    | .ok (l, m') =>
      match render_relations m' rs with
      | .error e => .error e
      | .ok (ls, m'') => .ok (l :: ls, m'')

/-- Class sort order of `render`: by node name (`key=lambda c: c.name`). -/
def node_ler : ClassNode → ClassNode → Prop :=
  fun a b => strLe a.name b.name = true

instance : DecidableRel node_ler := fun _ _ => instDecidableEqBool _ _

/-- Relation sort key of `render`: `(r.src, r.dst, r.kind.value, r.label or "")`. -/
def rkey (r : Relation) : String × String × String × String :=
  (r.src, r.dst, r.kind.value, r.label.getD "")

/-- One level of lexicographic tuple comparison: strictly smaller first
component, or equal first components and `leB`-related rest. -/
def lex_step {α β : Type} [BEq α] (ltA : α → α → Bool) (leB : β → β → Bool)
    (x y : α × β) : Bool :=
  ltA x.1 y.1 || (x.1 == y.1 && leB x.2 y.2)

/-- Lexicographic comparison of two sort keys (Python tuple `<=`). -/
def key_le (a b : String × String × String × String) : Bool :=
  lex_step strLt (lex_step strLt (lex_step strLt strLe)) a b

/-- Key order as a proposition, for the sortedness lemmas. -/
def key_ler : (String × String × String × String) →
    (String × String × String × String) → Prop :=
  fun a b => key_le a b = true

instance : DecidableRel key_ler := fun _ _ => instDecidableEqBool _ _

/-- Relation sort order of `render` (comparison of the keys). -/
def rel_ler : Relation → Relation → Prop :=
  fun a b => key_le (rkey a) (rkey b) = true

instance : DecidableRel rel_ler := fun _ _ => instDecidableEqBool _ _

/-- Method `PlantUmlRenderer.render`: sort classes by name and relations by
key, emit class blocks then relation lines with one shared alias map, and
join with newlines (a trailing newline is appended). -/
def render (d : ClassDiagram) : Except String String :=
  let classes := List.insertionSort node_ler (d.classes.map (fun p => p.2))
  let relations := List.insertionSort rel_ler d.relations
  match render_classes AliasMap.empty classes with
  | .error e => .error e
  | .ok (ls₁, m₁) =>
    match render_relations m₁ relations with
    | .error e => .error e
    | .ok (ls₂, _) => .ok (String.intercalate "\n" (ls₁ ++ ls₂) ++ "\n")

/-! ### Part 2: the closure engine (`score_draw_uml_funcs/__init__.py`)

Text accumulators (`structure_text`, `linkage_text`) are embedded as
`List String`, one element per newline-separated piece appended by the
source; joining the list with newlines reproduces the Python string.
Python dict indexing `all_needs[x]` (which raises `KeyError`) is embedded
by `needOf` with a default value; no claim exercises the `KeyError` path. -/

/-- Need record (§3 of the spec): an id, a type tag, a title and the four
relation fields used by the engine. -/
structure Need where
  id : String
  type : String
  title : String
  includes : List String
  consists_of : List String
  implements : List String
  uses : List String
deriving DecidableEq, Repr

instance : Inhabited Need := ⟨⟨"", "", "", [], [], [], []⟩⟩

/-- The host-supplied need graph `all_needs`: an insertion-ordered dict from
id to need record. -/
abbrev Graph := List (String × Need)

/-- Dict lookup `all_needs.get(x)`. -/
def lookupNeed (g : Graph) (i : String) : Option Need :=
  (g.find? (fun p => p.1 = i)).map (fun p => p.2)

/-- Dict indexing `all_needs[x]` (total stand-in; the raising path is not
exercised by any claim). -/
def needOf (g : Graph) (i : String) : Need := (lookupNeed g i).getD default

/-- Registries `proc_impl_interfaces` / `proc_used_interfaces`: dicts from
interface id to the list of need ids already credited for it. -/
abbrev Registry := List (String × List String)

/-- Registry read with default (`d.get(k, [])`). -/
def regGet (r : Registry) (k : String) : List String :=
  ((r.find? (fun p => p.1 = k)).map (fun p => p.2)).getD []

/-- Registry key-membership test (`k in d`). -/
def regHasKey (r : Registry) (k : String) : Bool :=
  (r.find? (fun p => p.1 = k)).isSome

/-- Registry write `d[k] = v`: update in place if the key exists, else append. -/
def regSet (r : Registry) (k : String) (v : List String) : Registry :=
  if regHasKey r k then r.map (fun p => if p.1 = k then (p.1, v) else p)
  else r ++ [(k, v)]

/-- Registry element append `d[k].append(x)` (the key is present). -/
def regAppend (r : Registry) (k : String) (x : String) : Registry :=
  regSet r k (regGet r k ++ [x])

/-- Python `set.add` on an insertion-ordered list model of a set. -/
def setInsert (l : List String) (x : String) : List String :=
  if l.contains x then l else l ++ [x]

/-- Python `set.update` / iterated `set.add`. -/
def setUnion (l : List String) (xs : List String) : List String :=
  xs.foldl setInsert l

/-- Final duplicate-link removal
`"\n".join(set(linkage_text.split("\n"))) + "\n"`, refined to the
deterministic first-occurrence order (the Python set order is unspecified;
only membership is observable to the claims). -/
def dedupLines (lt : List String) : List String := (lt ++ [""]).dedup

/-- External-namespace test of the feature closure
(`comp_id.startswith('comp__baselibs_') or comp_id.startswith('comp__os_')`). -/
def is_external_baselib (comp_id : String) : Bool :=
  List.isPrefixOf "comp__baselibs_".data comp_id.data ||
    List.isPrefixOf "comp__os_".data comp_id.data

/-- Modelled from the spec: helper `get_interface_from_component` of the
absent `score_draw_uml_funcs.helpers` module.  Per §4.1, for a relation name
in `{implements, uses}` it yields the interface ids of the component's
relation field, filtering out identifiers absent from the graph (logged,
never fatal); the immediate-sub-element indirection §4.1 also allows is not
exercised by any claim. -/
def get_interface_from_component (need : Need) (relation : String) (g : Graph) :
    List String :=
  (if relation = "implements" then need.implements else need.uses).filter
    (fun i => (lookupNeed g i).isSome)

/-- Modelled from the spec: helper `get_impl_comp_from_logic_iface` of the
absent helpers module — the components implementing a logical interface
(§4.3b "find components implementing any interface"), in graph order. -/
def get_impl_comp_from_logic_iface (iface : String) (g : Graph) : List String :=
  (g.filter (fun p => p.2.implements.contains iface)).map (fun p => p.1)

/-- Modelled from the spec: helper `get_module` (`module_of` of §4.1) of the
absent helpers module — the first module whose `includes` mention the
component, or none. -/
def get_module (compId : String) (g : Graph) : Option String :=
  (g.find? (fun p => p.2.type = "mod" && p.2.includes.contains compId)).map
    (fun p => p.1)

/-- Modelled from the spec: helper `get_interface_from_int` of the absent
helpers module — resolves an included id to an interface id, sending an
interface-operation id to the first interface whose `includes` contain it
(§4.3b); any other id maps to itself. -/
def get_interface_from_int (needInc : String) (g : Graph) : String :=
  match lookupNeed g needInc with
  | some n =>
    if n.type = "interface_op" then
      match g.find? (fun p => p.2.includes.contains needInc) with
      | some p => p.1
      | none => needInc
    else needInc
  | none => needInc

/-- Modelled from the spec: helper `get_alias` of the absent helpers module —
the rendering identifier of a need; §6 writes edges between "alias-or-id",
so the id itself serves. -/
def get_alias (needId : String) : String := needId

/-- Modelled from the spec: helper `gen_link_text` of the absent helpers
module — one edge line `"<alias> <arrow> <alias> : <label>"` (§6). -/
def gen_link_text (src : Need) (arrow : String) (dst : Need) (label : String) :
    String :=
  get_alias src.id ++ " " ++ arrow ++ " " ++ get_alias dst.id ++ " : " ++ label

/-- Modelled from the spec: helper `gen_struct_element` of the absent helpers
module — the opening text of a structural block
`"<struct-kind> \"<title>\" as <alias>"` (§6); braces are appended by the
callers. -/
def gen_struct_element (kind : String) (need : Need) : String :=
  kind ++ " \"" ++ need.title ++ "\" as " ++ get_alias need.id

/-- Modelled from the spec: helper `gen_interface_element` of the absent
helpers module — the structural block of an interface (§4.4), one block per
interface id. -/
def gen_interface_element (iface : String) (g : Graph) (_withOps : Bool) :
    String :=
  "interface \"" ++ (match lookupNeed g iface with
    | some n => n.title
    | none => iface) ++ "\" as " ++ get_alias iface

/-- Modelled from the spec: helper `get_hierarchy_text` of the absent helpers
module — open/close text of a component's enclosing-module chain (§4.4
step 3).  Following the source's indexing, `.1` opens the component chain,
`.2.1` closes it, `.2.2.1` opens the module, `.2.2.2` closes it. -/
def get_hierarchy_text (compId : String) (g : Graph) :
    String × String × String × String :=
  let compOpen :=
    match lookupNeed g compId with
    | some n => gen_struct_element "component" n ++ "  \x7b"
    | none => ""
  match get_module compId g with
  | some m =>
    match lookupNeed g m with
    | some mn => (compOpen, "\x7d", gen_struct_element "package" mn ++ "  \x7b", "\x7d")
    | none => (compOpen, "\x7d", "", "")
  | none => (compOpen, "\x7d", "", "")

/-- Modelled from the spec: helper `gen_header` of the absent helpers module —
a fixed header string prepended to every full diagram. -/
def gen_header : String := ""

/-- Per-request state threaded through the drawing functions: the host graph
and the two processed-interface registries.  The graph has a slot of its own
so that any mutation of it would be visible in the embedding. -/
structure DrawState where
  all_needs : Graph
  proc_impl_interfaces : Registry
  proc_used_interfaces : Registry
deriving DecidableEq, Repr

/-- Helper `_process_interfaces`: walk an interface list; for `implements`,
ensure a registry entry and record an edge plus the component id unless the
component was already credited; for `uses`, record the consumer.  Dangling
interface ids are logged and skipped. -/
def process_interfaces (iface_list : List String) (relation : String)
    (need : Need) (s : DrawState) (linkage_text : List String) :
    DrawState × List String :=
  match iface_list with
  | [] => (s, linkage_text)
  | iface :: rest =>
    match lookupNeed s.all_needs iface with
    | none => process_interfaces rest relation need s linkage_text
    | some ifn =>
      if relation = "implements" then
        let reg₁ :=
          if regGet s.proc_impl_interfaces iface = [] then
            regSet s.proc_impl_interfaces iface []
          else s.proc_impl_interfaces
        if (regGet reg₁ iface).contains need.id then
          process_interfaces rest relation need
            { s with proc_impl_interfaces := reg₁ } linkage_text
        else
          process_interfaces rest relation need
            { s with proc_impl_interfaces := regAppend reg₁ iface need.id }
            (linkage_text ++ [gen_link_text need "-u->" ifn "implements" ++ " "])
      else
        let reg₁ :=
          if regGet s.proc_used_interfaces iface = [] then
            regSet s.proc_used_interfaces iface [need.id]
          else regAppend s.proc_used_interfaces iface need.id
        process_interfaces rest relation need
          { s with proc_used_interfaces := reg₁ } linkage_text

mutual

/-- Function `draw_comp_incl_impl_int`: draw the component's block, in
white-box view recurse into `includes + consists_of` (a sub-component is
expanded white-box iff its own `consists_of` is non-empty), then process the
component's implemented and used interfaces.  The source recursion has no
revisit guard; the fuel parameter makes the embedding total, with `none`
meaning the recursion did not complete within `fuel` nested levels. -/
def draw_comp_incl_impl_int (fuel : Nat) (need : Need) (s : DrawState)
    (white_box_view : Bool) : Option (List String × List String × DrawState) :=
  match fuel with
  | 0 => none
  | fuel + 1 =>
    let res :=
      if white_box_view then
        draw_comp_children fuel (need.includes ++ need.consists_of) s
      else some ([], [], s)
    match res with
    | none => none
    | some (subStruct, subLink, s₁) =>
      let structure_text :=
        [gen_struct_element "component" need ++ "  \x7b"] ++ subStruct ++
          ["\x7d /' " ++ need.title ++ " '/ ", ""]
      let local_impl := get_interface_from_component need "implements" s₁.all_needs
      let local_used := get_interface_from_component need "uses" s₁.all_needs
      let r₁ := process_interfaces local_impl "implements" need s₁ subLink
      let r₂ := process_interfaces local_used "uses" need r₁.1 r₁.2
      some (structure_text, r₂.2, r₂.1)
termination_by (fuel, 0)

/-- White-box loop of `draw_comp_incl_impl_int` over the sub-component ids:
dangling ids and ids of unexpected type are logged and skipped; each found
sub-component is drawn recursively. -/
def draw_comp_children (fuel : Nat) (subs : List String) (s : DrawState) :
    Option (List String × List String × DrawState) :=
  match subs with
  | [] => some ([], [], s)
  | need_inc :: rest =>
    match lookupNeed s.all_needs need_inc with
    | none => draw_comp_children fuel rest s
    | some curr =>
      if curr.type = "comp" ∨ curr.type = "comp_arc_sta" then
        match draw_comp_incl_impl_int fuel curr s (!curr.consists_of.isEmpty) with
        | none => none
        | some (st, lt, s') =>
          match draw_comp_children fuel rest s' with
          | none => none
          | some (st', lt', s'') => some (st ++ st', lt ++ lt', s'')
      else draw_comp_children fuel rest s
termination_by (fuel, subs.length + 1)

end

mutual

/-- Function `draw_impl_interface`: union of the interfaces implemented by
the need and, recursively, by everything reachable through `includes` and
`consists_of`.  Fueled like `draw_comp_incl_impl_int` (the source recursion
is unguarded too). -/
def draw_impl_interface (fuel : Nat) (need : Need) (g : Graph)
    (local_impl_interfaces : List String) : Option (List String) :=
  match fuel with
  | 0 => none
  | fuel + 1 =>
    match draw_impl_children fuel (need.includes ++ need.consists_of) g
        local_impl_interfaces with
    | none => none
    | some acc =>
      some (setUnion acc (get_interface_from_component need "implements" g))
termination_by (fuel, 0)

/-- Loop of `draw_impl_interface` over the sub-element ids. -/
def draw_impl_children (fuel : Nat) (subs : List String) (g : Graph)
    (acc : List String) : Option (List String) :=
  match subs with
  | [] => some acc
  | need_inc :: rest =>
    match lookupNeed g need_inc with
    | none => draw_impl_children fuel rest g acc
    | some curr =>
      match draw_impl_interface fuel curr g acc with
      | none => none
      | some acc' => draw_impl_children fuel rest g acc'
termination_by (fuel, subs.length + 1)

end

/-- Loop of `_process_impl_interfaces` over the collected local interfaces:
a dangling id is logged and skipped; an interface whose registry entry is
missing or empty gets its structural block emitted once and is registered
against the current need. -/
def process_impl_loop (ifaces : List String) (need : Need) (s : DrawState)
    (structure_text : List String) : DrawState × List String :=
  match ifaces with
  | [] => (s, structure_text)
  | iface :: rest =>
    match lookupNeed s.all_needs iface with
    | none => process_impl_loop rest need s structure_text
    | some _ =>
      if regGet s.proc_impl_interfaces iface = [] then
        process_impl_loop rest need
          { s with proc_impl_interfaces :=
              regSet s.proc_impl_interfaces iface [need.id] }
          (structure_text ++ [gen_interface_element iface s.all_needs true])
      else process_impl_loop rest need s structure_text

/-- Function `_process_impl_interfaces`: recompute the local implemented
interfaces and emit/register the not-yet-processed ones. -/
def process_impl_interfaces (fuel : Nat) (need : Need) (s : DrawState)
    (structure_text : List String) : Option (DrawState × List String) :=
  match draw_impl_interface fuel need s.all_needs [] with
  | none => none
  | some local_impl => some (process_impl_loop local_impl need s structure_text)

/-- Loop of `_process_used_interfaces` over the used-interfaces registry
items: an interface without a non-empty implemented-registry entry gets its
hierarchy text and (unless locally implemented) its structural block plus an
implements edge when an implementing component exists, or a lone block
otherwise; every recorded consumer yields a uses edge. -/
def process_used_loop (items : List (String × List String)) (need : Need)
    (local_impl_interfaces : List String) (s : DrawState)
    (structure_text linkage_text : List String) :
    DrawState × List String × List String :=
  match items with
  | [] => (s, structure_text, linkage_text)
  | (iface, comps) :: rest =>
    let interface_structure_exists :=
      regHasKey s.proc_impl_interfaces iface &&
        !(regGet s.proc_impl_interfaces iface).isEmpty
    let step : DrawState × List String × List String :=
      if interface_structure_exists then (s, structure_text, linkage_text)
      else
        let impl_comp_str := get_impl_comp_from_logic_iface iface s.all_needs
        let impl_comp : Option Need :=
          match impl_comp_str.head? with
          | some c0 => lookupNeed s.all_needs c0
          | none => none
        match impl_comp with
        | some icomp =>
          let c0 := impl_comp_str.head?.getD ""
          let retval := get_hierarchy_text c0 s.all_needs
          let st₁ := structure_text ++ [retval.2.2.1, retval.1, retval.2.1, retval.2.2.2]
          let stepInner : DrawState × List String :=
            if !(local_impl_interfaces.contains iface) then
              ({ s with proc_impl_interfaces :=
                  regSet s.proc_impl_interfaces iface [c0] },
               st₁ ++ [gen_interface_element iface s.all_needs true])
            else (s, st₁)
          (stepInner.1, stepInner.2,
            linkage_text ++
              [gen_link_text icomp "-u->" (needOf s.all_needs iface) "implements"
                ++ " "])
        | none =>
          ({ s with proc_impl_interfaces :=
              regSet s.proc_impl_interfaces iface [] },
           structure_text ++ [gen_interface_element iface s.all_needs true],
           linkage_text)
    let usesLines := comps.map (fun comp =>
      gen_link_text (needOf s.all_needs comp) "-d[#green]->"
        (needOf s.all_needs iface) "uses" ++ " ")
    process_used_loop rest need local_impl_interfaces step.1 step.2.1
      (step.2.2 ++ usesLines)

/-- Function `_process_used_interfaces`: iterate the used-interfaces registry
items of the current state. -/
def process_used_interfaces (need : Need) (local_impl_interfaces : List String)
    (s : DrawState) (structure_text linkage_text : List String) :
    DrawState × List String × List String :=
  process_used_loop s.proc_used_interfaces need local_impl_interfaces s
    structure_text linkage_text

/-- Loop of `draw_module` over the module's `includes`: dangling ids and ids
whose type is neither `comp` nor `mod` are skipped; each remaining need is
drawn via `draw_comp_incl_impl_int`, white-box iff its `consists_of` is
non-empty. -/
def draw_module_children (fuel : Nat) (subs : List String) (s : DrawState) :
    Option (List String × List String × DrawState) :=
  match subs with
  | [] => some ([], [], s)
  | need_inc :: rest =>
    match lookupNeed s.all_needs need_inc with
    | none => draw_module_children fuel rest s
    | some curr =>
      if curr.type = "comp" ∨ curr.type = "mod" then
        match draw_comp_incl_impl_int fuel curr s (!curr.consists_of.isEmpty) with
        | none => none
        | some (st, lt, s') =>
          match draw_module_children fuel rest s' with
          | none => none
          | some (st', lt', s'') => some (st ++ st', lt ++ lt', s'')
      else draw_module_children fuel rest s

/-- Function `draw_module`: emit the not-yet-processed implemented interfaces
outside the box, open the package block, draw the included components, close
the block, handle the used interfaces, and deduplicate the linkage lines. -/
def draw_module (fuel : Nat) (need : Need) (s : DrawState) :
    Option (List String × List String × DrawState) :=
  match draw_impl_interface fuel need s.all_needs [] with
  | none => none
  | some local_impl =>
    match process_impl_interfaces fuel need s [] with
    | none => none
    | some (s₁, st₁) =>
      match draw_module_children fuel need.includes s₁ with
      | none => none
      | some (subSt, subLt, s₂) =>
        let st₂ := st₁ ++ [gen_struct_element "package" need ++ "  \x7b"] ++
          subSt ++ ["\x7d /' " ++ need.title ++ " '/ ", ""]
        let r := process_used_interfaces need local_impl s₂ st₂ subLt
        some (r.2.1, dedupLines r.2.2, r.1)

/-- State of the secondary-component fixed point of
`draw_full_feature._collect_interfaces_and_modules` (lines 536-563). -/
structure SecState where
  secondary_components : List String
  visited_interfaces : List String
  interfaces_to_process : List String
  all_related_interfaces : List String
deriving DecidableEq, Repr

/-- Enqueue step of the fixed point (lines 559-563): append each used
interface that is neither visited nor primary to the queue and record it in
the related set. -/
def enqueue_used (visited primary_interfaces : List String)
    (used : List String) (qr : List String × List String) :
    List String × List String :=
  used.foldl
    (fun qr u =>
      if !(visited.contains u) && !(primary_interfaces.contains u) then
        (qr.1 ++ [u], setInsert qr.2 u)
      else qr)
    qr

/-- Inner loop of the fixed point over the implementing components of the
interface being visited: a component that is not primary and is present in
the graph joins the secondary set; only when it is not external are the
interfaces it uses (not visited, not primary) appended to the queue and to
the related set. -/
def collect_impl_comps (g : Graph) (primary_components primary_interfaces
    visited : List String) (comps : List String)
    (secondary queue related : List String) :
    List String × List String × List String :=
  match comps with
  | [] => (secondary, queue, related)
  | comp_id :: rest =>
    if !(primary_components.contains comp_id) && (lookupNeed g comp_id).isSome then
      let secondary' := setInsert secondary comp_id
      if is_external_baselib comp_id then
        collect_impl_comps g primary_components primary_interfaces visited rest
          secondary' queue related
      else
        let used := get_interface_from_component (needOf g comp_id) "uses" g
        let qr := enqueue_used visited primary_interfaces used (queue, related)
        collect_impl_comps g primary_components primary_interfaces visited rest
          secondary' qr.1 qr.2
    else
      collect_impl_comps g primary_components primary_interfaces visited rest
        secondary queue related

/-- The `while interfaces_to_process` fixed point: pop the head interface;
if already visited or dangling, continue; otherwise mark it visited and run
`collect_impl_comps` on its implementers.  Fueled; `none` means the queue was
not exhausted within `fuel` iterations. -/
def collect_secondary_loop (fuel : Nat) (g : Graph)
    (primary_components primary_interfaces : List String) (st : SecState) :
    Option SecState :=
  match fuel, st.interfaces_to_process with
  | _, [] => some st
  | 0, _ :: _ => none
  | fuel + 1, iface :: rest =>
    if st.visited_interfaces.contains iface ∨ (lookupNeed g iface).isNone then
      collect_secondary_loop fuel g primary_components primary_interfaces
        { st with interfaces_to_process := rest }
    else
      let visited' := st.visited_interfaces ++ [iface]
      let r := collect_impl_comps g primary_components primary_interfaces
        visited' (get_impl_comp_from_logic_iface iface g)
        st.secondary_components rest st.all_related_interfaces
      collect_secondary_loop fuel g primary_components primary_interfaces
        { secondary_components := r.1, visited_interfaces := visited',
          interfaces_to_process := r.2.1, all_related_interfaces := r.2.2 }

/-- Primary-interface implementers (lines 513-522): components implementing a
primary interface that are neither primary nor external. -/
def primary_iface_implementers (g : Graph) (primary_components
    primary_interfaces : List String) : List String :=
  primary_interfaces.foldl
    (fun acc iface =>
      if (lookupNeed g iface).isSome then
        (get_impl_comp_from_logic_iface iface g).foldl
          (fun acc comp_id =>
            if !(primary_components.contains comp_id) &&
                !(is_external_baselib comp_id) then
              setInsert acc comp_id
            else acc)
          acc
      else acc)
    []

/-- Modules containing any related component, skipping external components
(lines 569-577). -/
def modules_to_draw_of (g : Graph) (all_related_components : List String) :
    List String :=
  all_related_components.foldl
    (fun acc comp_id =>
      if is_external_baselib comp_id then acc
      else
        match get_module comp_id g with
        | some m => setInsert acc m
        | none => acc)
    []

/-- Non-primary components included in a module that will be drawn
(lines 579-588). -/
def components_in_modules_only_of (g : Graph) (modules : List String)
    (primary_components : List String) : List String :=
  modules.foldl
    (fun acc m =>
      match lookupNeed g m with
      | some mn =>
        mn.includes.foldl
          (fun acc comp_id =>
            if !(primary_components.contains comp_id) then setInsert acc comp_id
            else acc)
          acc
      | none => acc)
    []

/-- Module-drawing loop of the collect phase (lines 590-602): each not yet
processed module is drawn; its structure is appended while the link text is
replaced by the module's own linkage (the source assigns, it does not
append). -/
def collect_modules_loop (fuel : Nat) (modules : List String) (s : DrawState)
    (structure_text link_text : List String) (proc_modules : List String) :
    Option (DrawState × List String × List String × List String) :=
  match modules with
  | [] => some (s, structure_text, link_text, proc_modules)
  | m :: rest =>
    if proc_modules.contains m then
      collect_modules_loop fuel rest s structure_text link_text proc_modules
    else
      match draw_module fuel (needOf s.all_needs m) s with
      | none => none
      | some (tmp, lt', s') =>
        collect_modules_loop fuel rest s' (structure_text ++ tmp) lt'
          (proc_modules ++ [m])

/-- Implementer-mapping update of the collect phase (lines 604-617): each
related interface found in the graph whose implementer list, filtered to
related components not excluded as module-only, is non-empty gets that
filtered list recorded. -/
def update_impl_comp (g : Graph) (all_related_interfaces
    all_related_components components_in_modules_only : List String)
    (impl_comp : Registry) : Registry :=
  all_related_interfaces.foldl
    (fun acc iface =>
      if (lookupNeed g iface).isSome then
        let comps := get_impl_comp_from_logic_iface iface g
        if comps ≠ [] then
          let filtered := comps.filter (fun c =>
            all_related_components.contains c &&
              !(components_in_modules_only.contains c))
          if filtered ≠ [] then regSet acc iface filtered else acc
        else acc
      else acc)
    impl_comp

/-- Method `draw_full_feature._collect_interfaces_and_modules`: partition
into primary/secondary/external, run the secondary fixed point, draw the
containing modules, and build the implementer mapping. -/
def collect_interfaces_and_modules (fuel : Nat) (need : Need) (s : DrawState)
    (interfacelist : List String) (impl_comp : Registry)
    (proc_modules : List String) (structure_text link_text : List String) :
    Option (List String × List String × DrawState × Registry × List String) :=
  let g := s.all_needs
  let primary_components := setUnion [] need.consists_of
  let primary_interfaces := setUnion [] interfacelist
  let implementers := primary_iface_implementers g primary_components
    primary_interfaces
  let secondary_init := primary_components.foldl
    (fun (p : List String × List String) comp_id =>
      if (lookupNeed g comp_id).isSome then
        let used := get_interface_from_component (needOf g comp_id) "uses" g
        (setUnion p.1 used, setUnion p.2 used)
      else p)
    ([], setUnion [] interfacelist)
  let secondary_interfaces := secondary_init.1
  match collect_secondary_loop fuel g primary_components primary_interfaces
      { secondary_components := [], visited_interfaces := [],
        interfaces_to_process := secondary_interfaces,
        all_related_interfaces := secondary_init.2 } with
  | none => none
  | some sec =>
    let all_related_components :=
      setUnion (setUnion primary_components sec.secondary_components)
        implementers
    let modules := modules_to_draw_of g all_related_components
    let c_in_mod := components_in_modules_only_of g modules primary_components
    match collect_modules_loop fuel modules s structure_text link_text
        proc_modules with
    | none => none
    | some (s', st', lt', pm') =>
      let impl_comp' := update_impl_comp g sec.all_related_interfaces
        all_related_components c_in_mod impl_comp
      some (st', lt', s', impl_comp', pm')

/-- The synthetic actor need (`{'id': 'Feature_User'}`). -/
def featureUserNeed : Need := { (default : Need) with id := "Feature_User" }

/-- The actor use edge of `_build_links`
(`gen_link_text({'id': 'Feature_User'}, '-d->', all_needs[iface], 'use')`). -/
def feature_user_line (g : Graph) (iface : String) : String :=
  gen_link_text featureUserNeed "-d->" (needOf g iface) "use" ++ " "

/-- The implements edge of `_build_links`
(`gen_link_text(all_needs[imcomp], '-u->', all_needs[iface], 'implements')`). -/
def implements_line (g : Graph) (imcomp iface : String) : String :=
  gen_link_text (needOf g imcomp) "-u->" (needOf g iface) "implements" ++ " "

/-- Method `draw_full_feature._build_links`: for every interface of the
mapping with a non-empty implementer list, add a `Feature User` use edge when
the interface is an original feature interface, and an implements edge from
every implementing component found in the graph. -/
def build_links (need : Need) (g : Graph)
    (original_feature_interfaces all_interfaces : List String)
    (impl_comp : Registry) (link_text : List String) : List String :=
  match all_interfaces with
  | [] => link_text
  | iface :: rest =>
    let impl_comps := regGet impl_comp iface
    if impl_comps ≠ [] then
      let lt₁ :=
        if original_feature_interfaces.contains iface then
          link_text ++ [feature_user_line g iface]
        else link_text
      let lt₂ := lt₁ ++ (impl_comps.filter
          (fun c => (lookupNeed g c).isSome)).map
        (fun imcomp => implements_line g imcomp iface)
      build_links need g original_feature_interfaces rest impl_comp lt₂
    else build_links need g original_feature_interfaces rest impl_comp link_text

/-- Interface-list accumulation of `draw_full_feature.__call__` over the
feature's `includes` (resolving operations to interfaces, keeping first
occurrences). -/
def feature_interfacelist (need : Need) (g : Graph) : List String :=
  need.includes.foldl
    (fun acc need_inc =>
      let iface := get_interface_from_int need_inc g
      if acc.contains iface then acc else acc ++ [iface])
    []

/-- Method `draw_full_feature.__call__`: fresh registries, the actor line,
the collect phase, the link-building phase and the final line
deduplication. -/
def draw_full_feature (fuel : Nat) (need : Need) (g : Graph) :
    Option (List String) :=
  let interfacelist := feature_interfacelist need g
  let structure_text :=
    ["actor \"Feature User\" as " ++ get_alias "Feature_User" ++ " "]
  match collect_interfaces_and_modules fuel need
      { all_needs := g, proc_impl_interfaces := [], proc_used_interfaces := [] }
      interfacelist [] [] structure_text [] with
  | none => none
  | some (st, lt, _, impl_comp, _) =>
    let all_interfaces := impl_comp.map (fun p => p.1)
    let lt₁ := build_links need g interfacelist all_interfaces impl_comp lt
    some ([gen_header] ++ st ++ dedupLines lt₁)

/-- Method `draw_full_module.__call__`. -/
def draw_full_module (fuel : Nat) (need : Need) (g : Graph) :
    Option (List String) :=
  match draw_module fuel need
      { all_needs := g, proc_impl_interfaces := [], proc_used_interfaces := [] } with
  | none => none
  | some (st, lt, _) => some ([gen_header] ++ st ++ lt)

/-- Method `draw_full_component.__call__`. -/
def draw_full_component (fuel : Nat) (need : Need) (g : Graph) :
    Option (List String) :=
  match draw_comp_incl_impl_int fuel need
      { all_needs := g, proc_impl_interfaces := [], proc_used_interfaces := [] }
      true with
  | none => none
  | some (st, lt, _) =>
    match draw_impl_interface fuel need g [] with
    | none => none
    | some local_impl =>
      let extra := (local_impl.filter (fun i => (lookupNeed g i).isSome)).map
        (fun i => gen_interface_element i g true)
      some ([gen_header] ++ st ++ extra ++ lt)

/-- Method `draw_full_interface.__call__`. -/
def draw_full_interface (need : Need) (g : Graph) : List String :=
  [gen_interface_element need.id g true, ""]

/-! ### Concrete fixtures used by the claim theorems -/

/-- Test for an error result of alias sanitization. -/
def isErrB : Except String String → Bool
  | .error _ => true
  | .ok _ => false

/-- Two successive alias requests against one fresh alias map. -/
def aliasPair (n₁ n₂ : String) : Except String (String × String) :=
  match AliasMap.empty.getItem n₁ with
  | .error e => .error e
  | .ok (a₁, m₁) =>
    match m₁.getItem n₂ with
    | .error e => .error e
    | .ok (a₂, _) => .ok (a₁, a₂)

/-- Cyclic-containment fixture: component A consists of B. -/
def needA : Need :=
  { id := "comp_a", type := "comp", title := "A", includes := [],
    consists_of := ["comp_b"], implements := [], uses := [] }

/-- Cyclic-containment fixture: component B consists of A. -/
def needB : Need :=
  { id := "comp_b", type := "comp", title := "B", includes := [],
    consists_of := ["comp_a"], implements := [], uses := [] }

/-- A need graph in which `consists_of` is cyclic (A ↔ B). -/
def gCyc : Graph := [("comp_a", needA), ("comp_b", needB)]

/-- Feature fixture: feature F with primary component C1 and primary
interface I1. -/
def needF : Need :=
  { id := "feat_f", type := "feature", title := "F", includes := ["iface_i1"],
    consists_of := ["comp_c1"], implements := [], uses := [] }

/-- Feature fixture: interface I1. -/
def needI1 : Need :=
  { id := "iface_i1", type := "logic_if", title := "I1", includes := [],
    consists_of := [], implements := [], uses := [] }

/-- Feature fixture: interface I2. -/
def needI2 : Need :=
  { id := "iface_i2", type := "logic_if", title := "I2", includes := [],
    consists_of := [], implements := [], uses := [] }

/-- Feature fixture: primary component C1, implements I1 and uses I2. -/
def needC1 : Need :=
  { id := "comp_c1", type := "comp", title := "C1", includes := [],
    consists_of := [], implements := ["iface_i1"], uses := ["iface_i2"] }

/-- Feature fixture: non-external component C2, implements I2. -/
def needC2 : Need :=
  { id := "comp_c2", type := "comp", title := "C2", includes := [],
    consists_of := [], implements := ["iface_i2"], uses := [] }

/-- The feature-closure scenario graph of §8 of the spec. -/
def gScen : Graph :=
  [("feat_f", needF), ("iface_i1", needI1), ("iface_i2", needI2),
   ("comp_c1", needC1), ("comp_c2", needC2)]

/-- External-chain fixture: an external component implementing I2 and using
a further interface I3. -/
def needCx : Need :=
  { id := "comp__baselibs_x", type := "comp", title := "X", includes := [],
    consists_of := [], implements := ["iface_i2"], uses := ["iface_i3"] }

/-- External-chain fixture: interface I3, used only by the external
component. -/
def needI3 : Need :=
  { id := "iface_i3", type := "logic_if", title := "I3", includes := [],
    consists_of := [], implements := [], uses := [] }

/-- Graph in which the only implementer of the secondary interface I2 is an
external component. -/
def gExt : Graph :=
  [("feat_f", needF), ("iface_i1", needI1), ("iface_i2", needI2),
   ("comp_c1", needC1), ("comp__baselibs_x", needCx), ("iface_i3", needI3)]

/-- Initial fixed-point state for `gExt`: the queue holds the secondary
interface I2. -/
def c2init : SecState :=
  { secondary_components := [], visited_interfaces := [],
    interfaces_to_process := ["iface_i2"],
    all_related_interfaces := ["iface_i1", "iface_i2"] }

/-- No-implementer fixture: interface I0 that nothing implements. -/
def needI0 : Need :=
  { id := "iface_i0", type := "logic_if", title := "I0", includes := [],
    consists_of := [], implements := [], uses := [] }

/-- No-implementer fixture: component C0 using I0. -/
def needC0 : Need :=
  { id := "comp_c0", type := "comp", title := "C0", includes := [],
    consists_of := [], implements := [], uses := ["iface_i0"] }

/-- Graph in which the used interface I0 has no implementing component. -/
def gNoImpl : Graph := [("iface_i0", needI0), ("comp_c0", needC0)]

/-- Registry state after C0's used interface was recorded: the input of the
idempotence scenario. -/
def c3_state0 : DrawState :=
  { all_needs := gNoImpl, proc_impl_interfaces := [],
    proc_used_interfaces := [("iface_i0", ["comp_c0"])] }

/-! ### Theorems -/

/-! #### Properties of the string order -/

theorem char_toNat_inj {a b : Char} (h : a.toNat = b.toNat) : a = b := by
  cases a with
  | mk va pa =>
    cases b with
    | mk vb pb =>
      simp only [Char.toNat] at h
      have : va = vb := by
        cases va; cases vb
        simp only [UInt32.toNat] at h
        congr 1
        exact BitVec.toNat_injective h
      subst this
      rfl

theorem charListLt_irrefl : ∀ l, charListLt l l = false := by
  intro l
  induction l with
  | nil => rfl
  | cons a as ih => simp [charListLt, ih]

theorem charListLt_trans :
    ∀ {a b c : List Char}, charListLt a b = true → charListLt b c = true →
      charListLt a c = true := by
  intro a
  induction a with
  | nil =>
    intro b c hab hbc
    cases b with
    | nil => simp [charListLt] at hab
    | cons x xs =>
      cases c with
      | nil => simp [charListLt] at hbc
      | cons y ys => simp [charListLt]
  | cons x xs ih =>
    intro b c hab hbc
    cases b with
    | nil => simp [charListLt] at hab
    | cons y ys =>
      cases c with
      | nil => simp [charListLt] at hbc
      | cons z zs =>
        simp only [charListLt, Bool.or_eq_true, Bool.and_eq_true,
          decide_eq_true_eq] at hab hbc ⊢
        rcases hab with h₁ | ⟨h₁, h₂⟩
        · rcases hbc with h₃ | ⟨h₃, _⟩
          · exact Or.inl (Nat.lt_trans h₁ h₃)
          · exact Or.inl (h₃ ▸ h₁)
        · rcases hbc with h₃ | ⟨h₃, h₄⟩
          · exact Or.inl (h₁ ▸ h₃)
          · exact Or.inr ⟨h₁.trans h₃, ih h₂ h₄⟩

theorem charListLt_total :
    ∀ (a b : List Char), charListLt a b = true ∨ charListLt b a = true ∨ a = b := by
  intro a
  induction a with
  | nil =>
    intro b
    cases b with
    | nil => exact Or.inr (Or.inr rfl)
    | cons y ys => exact Or.inl (by simp [charListLt])
  | cons x xs ih =>
    intro b
    cases b with
    | nil => exact Or.inr (Or.inl (by simp [charListLt]))
    | cons y ys =>
      rcases Nat.lt_trichotomy x.toNat y.toNat with h | h | h
      · exact Or.inl (by simp [charListLt, h])
      · rcases ih ys with h₂ | h₂ | h₂
        · exact Or.inl (by simp [charListLt, h, h₂])
        · exact Or.inr (Or.inl (by simp [charListLt, h.symm, h₂]))
        · exact Or.inr (Or.inr (by rw [char_toNat_inj h, h₂]))
      · exact Or.inr (Or.inl (by simp [charListLt, h]))

theorem strLt_irrefl (a : String) : strLt a a = false := by
  simp [strLt, charListLt_irrefl]

theorem strLt_trans {a b c : String} (h₁ : strLt a b = true) (h₂ : strLt b c = true) :
    strLt a c = true :=
  charListLt_trans h₁ h₂

theorem strLt_total (a b : String) :
    strLt a b = true ∨ strLt b a = true ∨ a = b := by
  rcases charListLt_total a.data b.data with h | h | h
  · exact Or.inl h
  · exact Or.inr (Or.inl h)
  · refine Or.inr (Or.inr ?_)
    cases a; cases b; simp_all [String.data]

theorem strLt_asymm {a b : String} (h : strLt a b = true) : strLt b a = false := by
  by_contra hc
  have hba : strLt b a = true := by
    cases hba : strLt b a
    · exact absurd hba hc
    · rfl
  have := strLt_trans h hba
  rw [strLt_irrefl] at this
  exact Bool.false_ne_true this

theorem strLe_total (a b : String) : strLe a b = true ∨ strLe b a = true := by
  rcases strLt_total a b with h | h | h
  · exact Or.inl (by simp [strLe, h])
  · exact Or.inr (by simp [strLe, h])
  · exact Or.inl (by simp [strLe, h])

theorem strLe_trans {a b c : String} (h₁ : strLe a b = true) (h₂ : strLe b c = true) :
    strLe a c = true := by
  simp only [strLe, Bool.or_eq_true, beq_iff_eq] at h₁ h₂ ⊢
  rcases h₁ with h₁ | h₁
  · rcases h₂ with h₂ | h₂
    · exact Or.inl (strLt_trans h₁ h₂)
    · exact Or.inl (h₂ ▸ h₁)
  · rcases h₂ with h₂ | h₂
    · exact Or.inl (h₁ ▸ h₂)
    · exact Or.inr (h₁.trans h₂)

theorem strLe_antisymm {a b : String} (h₁ : strLe a b = true) (h₂ : strLe b a = true) :
    a = b := by
  simp only [strLe, Bool.or_eq_true, beq_iff_eq] at h₁ h₂
  rcases h₁ with h₁ | h₁
  · rcases h₂ with h₂ | h₂
    · have := strLt_asymm h₁
      rw [h₂] at this
      exact absurd this (by simp)
    · exact h₂.symm
  · exact h₁

/-! #### Dict-lookup helper lemmas -/

theorem find?_fst_map (g : String × ClassNode → String × ClassNode)
    (hg : ∀ p, (g p).1 = p.1) (cs : List (String × ClassNode)) (k : String) :
    ((cs.map g).find? (fun p => p.1 = k)).isSome =
      ((cs.find? (fun p => p.1 = k)).isSome) := by
  rw [List.find?_map]
  induction cs with
  | nil => rfl
  | cons a cs ih =>
    simp only [List.find?_cons, Function.comp_apply, hg a]
    by_cases hk : a.1 = k
    · simp [hk]
    · have hd : decide (a.1 = k) = false := by simp [hk]
      simp only [hd]
      exact ih

theorem find?_key_updateClass (cs : List (String × ClassNode)) (n : String)
    (f : ClassNode → ClassNode) (k : String) :
    ((updateClass cs n f).find? (fun p => p.1 = k)).isSome =
      ((cs.find? (fun p => p.1 = k)).isSome) := by
  refine find?_fst_map _ ?_ cs k
  intro p
  by_cases h : p.1 = n <;> simp [h]

theorem getClass_isSome_iff (d : ClassDiagram) (k : String) :
    (d.getClass k).isSome = ((d.classes.find? (fun p => p.1 = k)).isSome) := by
  unfold ClassDiagram.getClass
  cases d.classes.find? (fun p => p.1 = k) <;> rfl

theorem getClass_isSome_ensure_self (d : ClassDiagram) (n : String)
    (st : Option String) (h : n ≠ "") :
    (((ensure_class d n st).2).getClass n).isSome = true := by
  unfold ensure_class
  simp only [if_neg h]
  cases hg : d.getClass n with
  | none =>
    have hfind : d.classes.find? (fun p => p.1 = n) = none := by
      have hiff := getClass_isSome_iff d n
      rw [hg] at hiff
      cases hf : d.classes.find? (fun p => p.1 = n) <;> simp [hf] at hiff ⊢
    simp [getClass_isSome_iff, List.find?_append, hfind, List.find?_cons]
  | some node =>
    have hfind : (d.classes.find? (fun p => p.1 = n)).isSome = true := by
      rw [← getClass_isSome_iff, hg]; rfl
    cases st with
    | none => simpa [getClass_isSome_iff] using hfind
    | some sv =>
      cases hns : node.stereotype with
      | none =>
        simp only [hns]
        simp [getClass_isSome_iff, find?_key_updateClass, hfind]
      | some s0 => simpa [hns, getClass_isSome_iff] using hfind

theorem getClass_isSome_ensure_mono (d : ClassDiagram) (n : String)
    (st : Option String) (x : String)
    (h : (d.getClass x).isSome = true) :
    (((ensure_class d n st).2).getClass x).isSome = true := by
  rw [getClass_isSome_iff] at h
  unfold ensure_class
  by_cases hn : n = ""
  · simpa [hn, getClass_isSome_iff] using h
  · simp only [if_neg hn]
    cases hg : d.getClass n with
    | none =>
      rw [getClass_isSome_iff]
      simp only [List.find?_append]
      cases hf : d.classes.find? (fun p => p.1 = x) <;> simp [hf] at h ⊢
    | some node =>
      cases st with
      | none => simpa [getClass_isSome_iff] using h
      | some sv =>
        cases hns : node.stereotype with
        | none =>
          simp only [hns]
          simp [getClass_isSome_iff, find?_key_updateClass, h]
        | some s0 => simpa [hns, getClass_isSome_iff] using h

theorem ensure_class_no_error (d : ClassDiagram) (n : String)
    (st : Option String) (h : n ≠ "") :
    (ensure_class d n st).1 = none := by
  unfold ensure_class
  simp only [if_neg h]
  split
  · rfl
  · split <;> rfl

theorem ensure_class_error_state (d : ClassDiagram) (n : String)
    (st : Option String) (h : (ensure_class d n st).1.isSome = true) :
    (ensure_class d n st).2 = d := by
  by_cases hn : n = ""
  · simp [ensure_class, hn]
  · rw [ensure_class_no_error d n st hn] at h
    simp at h

/-! #### Claim C7: auto-vivification of relation endpoints and member classes -/

/-- C7: for every diagram and non-empty names, after `relate a b` both `a`
and `b` exist as nodes of `classes` even if never explicitly declared, and
`add_member c m` creates class `c` when absent: auto-vivification holds
after every mutating operation. -/
theorem C7_auto_vivification (d : ClassDiagram) (a b c m : String)
    (kind : RelationKind) (label : Option String) (v : Visibility)
    (t : Option String) (ha : a ≠ "") (hb : b ≠ "") (hc : c ≠ "") (hm : m ≠ "") :
    (((relate d a b kind label).2.getClass a).isSome = true ∧
      ((relate d a b kind label).2.getClass b).isSome = true) ∧
    ((add_member d c m v t).2.getClass c).isSome = true := by
  refine ⟨?_, ?_⟩
  · have hor : ¬(a = "" ∨ b = "") := by
      rintro (h | h) <;> [exact ha h; exact hb h]
    rcases he₁ : ensure_class d a none with ⟨e₁, d₁⟩
    have he₁n : e₁ = none := by
      have h := ensure_class_no_error d a none ha
      rw [he₁] at h
      exact h
    subst he₁n
    rcases he₂ : ensure_class d₁ b none with ⟨e₂, d₂⟩
    have he₂n : e₂ = none := by
      have h := ensure_class_no_error d₁ b none hb
      rw [he₂] at h
      exact h
    subst he₂n
    have hg₁ : (d₁.getClass a).isSome = true := by
      have h := getClass_isSome_ensure_self d a none ha
      rw [he₁] at h
      exact h
    have hg₂a : (d₂.getClass a).isSome = true := by
      have h := getClass_isSome_ensure_mono d₁ b none a hg₁
      rw [he₂] at h
      exact h
    have hg₂b : (d₂.getClass b).isSome = true := by
      have h := getClass_isSome_ensure_self d₁ b none hb
      rw [he₂] at h
      exact h
    unfold relate
    rw [if_neg hor, he₁]
    dsimp only
    rw [he₂]
    dsimp only
    exact ⟨hg₂a, hg₂b⟩
  · rcases he₁ : ensure_class d c none with ⟨e₁, d₁⟩
    have he₁n : e₁ = none := by
      have h := ensure_class_no_error d c none hc
      rw [he₁] at h
      exact h
    subst he₁n
    have hg₁ : (d₁.getClass c).isSome = true := by
      have h := getClass_isSome_ensure_self d c none hc
      rw [he₁] at h
      exact h
    unfold add_member
    rw [if_neg hm, he₁]
    dsimp only
    rw [getClass_isSome_iff] at hg₁ ⊢
    simpa [find?_key_updateClass] using hg₁

/-- C7 witness at a concrete input. -/
theorem C7_auto_vivification_witness :
    (((relate ClassDiagram.empty "A" "B" RelationKind.ASSOCIATION
        none).2.getClass "A").isSome = true ∧
      ((relate ClassDiagram.empty "A" "B" RelationKind.ASSOCIATION
        none).2.getClass "B").isSome = true) ∧
    ((add_member ClassDiagram.empty "C" "m" Visibility.PUBLIC
        none).2.getClass "C").isSome = true :=
  C7_auto_vivification ClassDiagram.empty "A" "B" "C" "m"
    RelationKind.ASSOCIATION none Visibility.PUBLIC none
    (by decide) (by decide) (by decide) (by decide)

/-! #### Claim C10: error atomicity of `add_member` and `relate` -/

/-- C10: when `add_member` or `relate` raises the empty-name validation
error, the diagram is unchanged: the member name is validated before the
class is ensured, and both endpoints are validated before either node is
created or the relation appended. -/
theorem C10_error_atomicity (d : ClassDiagram) (c m a b : String)
    (v : Visibility) (t : Option String) (kind : RelationKind)
    (label : Option String) :
    ((add_member d c m v t).1.isSome = true → (add_member d c m v t).2 = d) ∧
    ((relate d a b kind label).1.isSome = true →
      (relate d a b kind label).2 = d) := by
  constructor
  · intro herr
    unfold add_member at herr ⊢
    by_cases hm : m = ""
    · simp [hm]
    · rw [if_neg hm] at herr ⊢
      rcases he : ensure_class d c none with ⟨e₁, d₁⟩
      rw [he] at herr
      cases e₁ with
      | none =>
        dsimp only at herr
        exact (Bool.false_ne_true herr).elim
      | some msg =>
        have hst : (ensure_class d c none).2 = d :=
          ensure_class_error_state d c none (by rw [he]; rfl)
        rw [he] at hst
        dsimp only
        exact hst
  · intro herr
    unfold relate at herr ⊢
    by_cases hor : a = "" ∨ b = ""
    · simp [hor]
    · rw [if_neg hor] at herr ⊢
      push_neg at hor
      rcases he₁ : ensure_class d a none with ⟨e₁, d₁⟩
      have he₁n : e₁ = none := by
        have h := ensure_class_no_error d a none hor.1
        rw [he₁] at h
        exact h
      subst he₁n
      rcases he₂ : ensure_class d₁ b none with ⟨e₂, d₂⟩
      have he₂n : e₂ = none := by
        have h := ensure_class_no_error d₁ b none hor.2
        rw [he₂] at h
        exact h
      subst he₂n
      rw [he₁] at herr
      dsimp only at herr
      rw [he₂] at herr
      dsimp only at herr
      simp at herr

/-- C10 witness at a concrete input. -/
theorem C10_error_atomicity_witness :
    ((add_member ClassDiagram.empty "C" "" Visibility.PUBLIC none).1.isSome =
        true →
      (add_member ClassDiagram.empty "C" "" Visibility.PUBLIC none).2 =
        ClassDiagram.empty) ∧
    ((relate ClassDiagram.empty "A" "" RelationKind.ASSOCIATION
        none).1.isSome = true →
      (relate ClassDiagram.empty "A" "" RelationKind.ASSOCIATION none).2 =
        ClassDiagram.empty) :=
  C10_error_atomicity ClassDiagram.empty "C" "" "A" "" Visibility.PUBLIC
    none RelationKind.ASSOCIATION none

/-! #### Claim C8: validation-error conditions -/

theorem strip_underscores_eq_nil_iff (l : List Char) :
    strip_underscores l = [] ↔ ∀ c ∈ l, c = '_' := by
  unfold strip_underscores
  constructor
  · intro h c hc
    rw [List.reverse_eq_nil_iff, List.dropWhile_eq_nil_iff] at h
    have hall : ∀ x ∈ l.dropWhile (fun c => c = '_'), x = '_' := by
      intro x hx
      have := h x (by simpa using hx)
      simpa using this
    have hl := List.takeWhile_append_dropWhile
      (p := fun c : Char => decide (c = '_')) (l := l)
    rw [← hl] at hc
    rcases List.mem_append.mp hc with hc | hc
    · have := List.mem_takeWhile_imp hc
      simpa using this
    · exact hall c hc
  · intro h
    have h₁ : l.dropWhile (fun c => c = '_') = [] := by
      rw [List.dropWhile_eq_nil_iff]
      intro x hx
      simpa using h x hx
    simp [h₁]

theorem repl_eq_underscore_iff (c : Char) :
    ((if VALID_CHAR c then c else '_') = '_') ↔ c.isAlphanum = false := by
  unfold VALID_CHAR
  cases ha : c.isAlphanum with
  | true =>
    have hne : c ≠ '_' := by
      intro h
      subst h
      simp at ha
    simp [ha, hne]
  | false =>
    by_cases hu : c = '_'
    · subst hu
      decide
    · simp [ha, hu]

theorem sanitize_error_iff_strip (name : String) :
    isErrB (sanitize name) = true ↔
      strip_underscores (name.data.map
        (fun ch => if VALID_CHAR ch then ch else '_')) = [] := by
  unfold sanitize
  by_cases h : String.mk (strip_underscores (name.data.map
      (fun ch => if VALID_CHAR ch then ch else '_'))) = ""
  · have hnil : strip_underscores (name.data.map
        (fun ch => if VALID_CHAR ch then ch else '_')) = [] := by
      have := congrArg String.data h
      simpa using this
    simp [h, isErrB, hnil]
  · have hnil : strip_underscores (name.data.map
        (fun ch => if VALID_CHAR ch then ch else '_')) ≠ [] := by
      intro hc
      exact h (by rw [hc])
    simp [h, isErrB, hnil]

theorem sanitize_error_iff (name : String) :
    isErrB (sanitize name) = true ↔
      name.data.all (fun c => !c.isAlphanum) = true := by
  rw [sanitize_error_iff_strip, strip_underscores_eq_nil_iff]
  simp only [List.all_eq_true, List.mem_map, Bool.not_eq_true']
  constructor
  · intro h c hc
    have := h (if VALID_CHAR c then c else '_') ⟨c, hc, rfl⟩
    exact (repl_eq_underscore_iff c).mp this
  · rintro h x ⟨c, hc, rfl⟩
    exact (repl_eq_underscore_iff c).mpr (h c hc)

/-- C8 counterexample: the claim characterizes the alias-creation error as
"the display name contains no letter, digit, or underscore", but the name
`"_"` contains an underscore and still raises (underscores are stripped
before the emptiness test). -/
theorem C8_claim_counterexample :
    ¬ (isErrB (sanitize "_") = true ↔
        ("_".data.all (fun c => !(c.isAlphanum || c = '_'))) = true) := by
  decide

/-- C8 (amended): `add_class` raises exactly on an empty class name,
`add_member` exactly on an empty member or class name, `relate` exactly on an
empty endpoint, and alias sanitization raises exactly when the display name
contains no letter or digit (so that it sanitizes to the empty string); in
all other cases the operations succeed. -/
theorem C8_validation_conditions :
    (∀ (d : ClassDiagram) (n : String) (st : Option String),
        (add_class d n st).1.isSome = true ↔ n = "") ∧
    (∀ (d : ClassDiagram) (c m : String) (v : Visibility) (t : Option String),
        (add_member d c m v t).1.isSome = true ↔ (m = "" ∨ c = "")) ∧
    (∀ (d : ClassDiagram) (a b : String) (k : RelationKind)
        (l : Option String),
        (relate d a b k l).1.isSome = true ↔ (a = "" ∨ b = "")) ∧
    (∀ name : String,
        isErrB (sanitize name) = true ↔
          name.data.all (fun c => !c.isAlphanum) = true) := by
  refine ⟨?_, ?_, ?_, sanitize_error_iff⟩
  · intro d n st
    constructor
    · intro h
      by_contra hn
      rw [add_class, ensure_class_no_error d n st hn] at h
      simp at h
    · intro h
      subst h
      simp [add_class, ensure_class]
  · intro d c m v t
    constructor
    · intro h
      by_cases hm : m = ""
      · exact Or.inl hm
      · by_cases hc : c = ""
        · exact Or.inr hc
        · exfalso
          unfold add_member at h
          rw [if_neg hm] at h
          rcases he : ensure_class d c none with ⟨e₁, d₁⟩
          rw [he] at h
          have he₁ : e₁ = none := by
            have hne := ensure_class_no_error d c none hc
            rw [he] at hne
            exact hne
          subst he₁
          dsimp only at h
          exact Bool.false_ne_true h
    · intro h
      rcases h with h | h
      · simp [add_member, h]
      · by_cases hm : m = ""
        · simp [add_member, hm]
        · unfold add_member
          rw [if_neg hm]
          rcases he : ensure_class d c none with ⟨e₁, d₁⟩
          have he₁ : e₁.isSome = true := by
            have herr : (ensure_class d c none).1.isSome = true := by
              simp [ensure_class, h]
            rw [he] at herr
            exact herr
          cases e₁ with
          | none => simp at he₁
          | some msg => rfl
  · intro d a b k l
    constructor
    · intro h
      by_contra hor
      push_neg at hor
      unfold relate at h
      rw [if_neg (by rintro (hx | hx) <;> [exact hor.1 hx; exact hor.2 hx])] at h
      rcases he₁ : ensure_class d a none with ⟨e₁, d₁⟩
      rw [he₁] at h
      have he₁n : e₁ = none := by
        have hne := ensure_class_no_error d a none hor.1
        rw [he₁] at hne
        exact hne
      subst he₁n
      dsimp only at h
      rcases he₂ : ensure_class d₁ b none with ⟨e₂, d₂⟩
      rw [he₂] at h
      have he₂n : e₂ = none := by
        have hne := ensure_class_no_error d₁ b none hor.2
        rw [he₂] at hne
        exact hne
      subst he₂n
      dsimp only at h
      exact Bool.false_ne_true h
    · intro h
      unfold relate
      rw [if_pos h]
      rfl

/-! #### Claim C4: deterministic, memoized alias allocation -/

theorem create_alias_map_eq (mp : AliasMap) (name a : String) (m₂ : AliasMap)
    (h : mp.create_alias name = .ok (a, m₂)) : m₂.map = mp.map := by
  unfold AliasMap.create_alias at h
  cases hs : sanitize name with
  | error e => rw [hs] at h; exact absurd h (by simp)
  | ok base =>
    rw [hs] at h
    dsimp only at h
    cases hf : (base :: (List.range (mp.used.length + 1)).map
        (fun k => base ++ "_" ++ Nat.repr (k + 2))).find?
        (fun c => !(mp.used.contains c)) with
    | none =>
      rw [hf] at h
      simp only [Except.ok.injEq, Prod.mk.injEq] at h
      rw [← h.2]
    | some cand =>
      rw [hf] at h
      simp only [Except.ok.injEq, Prod.mk.injEq] at h
      rw [← h.2]

/-- C4: alias allocation is deterministic and memoized — a second request
for the same display name returns the same identifier and leaves the map
unchanged; a fresh request whose sanitized form is new is answered by that
sanitized form; and the order-dependent collision example
`["A B", "A.B"] ↦ [A_B, A_B_2]` holds. -/
theorem C4_alias_allocation :
    (∀ (mp : AliasMap) (name a : String) (mp' : AliasMap),
        mp.getItem name = .ok (a, mp') → mp'.getItem name = .ok (a, mp')) ∧
    (∀ name b : String, sanitize name = .ok b →
        AliasMap.empty.getItem name =
          .ok (b, { map := [(name, b)], used := [b] })) ∧
    aliasPair "A B" "A.B" = .ok ("A_B", "A_B_2") := by
  refine ⟨?_, ?_, rfl⟩
  · intro mp name a mp' h
    unfold AliasMap.getItem at h ⊢
    cases hf : mp.map.find? (fun p => p.1 = name) with
    | some p =>
      rw [hf] at h
      simp only [Except.ok.injEq, Prod.mk.injEq] at h
      rw [← h.1, ← h.2, hf]
    | none =>
      rw [hf] at h
      cases hca : mp.create_alias name with
      | error e => rw [hca] at h; exact absurd h (by simp)
      | ok pair =>
        rcases pair with ⟨a₂, m₂⟩
        rw [hca] at h
        dsimp only at h
        simp only [Except.ok.injEq, Prod.mk.injEq] at h
        have hmap : m₂.map = mp.map := create_alias_map_eq mp name a₂ m₂ hca
        rw [← h.2]
        have hfind : ((m₂.map ++ [(name, a₂)]).find?
            (fun p => p.1 = name)) = some (name, a₂) := by
          rw [List.find?_append, hmap, hf]
          simp [List.find?_cons]
        simp only [AliasMap.getItem, hfind]
        rw [← h.1]
  · intro name b hsan
    unfold AliasMap.getItem AliasMap.create_alias
    rw [hsan]
    simp [AliasMap.empty, List.find?_cons]

/-- C4 witness at a concrete input. -/
theorem C4_alias_allocation_witness :
    AliasMap.empty.getItem "x y" =
      .ok ("x_y", { map := [("x y", "x_y")], used := ["x_y"] }) :=
  C4_alias_allocation.2.1 "x y" "x_y" rfl

/-! #### Claim C1: the component-nesting recursion on a containment cycle -/

/-- C1 (code bug): on the cyclic graph `gCyc` (A consists of B, B consists of
A) the white-box recursion of `draw_comp_incl_impl_int` never completes, for
any fuel and any registry contents — the source has no revisit guard, so the
Python original recurses without bound, contrary to the claim and to the
spec's cycle-breaking requirement. -/
theorem C1_cycle_nontermination :
    ∀ (fuel : Nat) (pI pU : Registry),
      draw_comp_incl_impl_int fuel needA
        { all_needs := gCyc, proc_impl_interfaces := pI,
          proc_used_interfaces := pU } true = none ∧
      draw_comp_incl_impl_int fuel needB
        { all_needs := gCyc, proc_impl_interfaces := pI,
          proc_used_interfaces := pU } true = none := by
  intro fuel
  induction fuel with
  | zero =>
    intro pI pU
    exact ⟨by rw [draw_comp_incl_impl_int], by rw [draw_comp_incl_impl_int]⟩
  | succ fuel ih =>
    intro pI pU
    constructor
    · rw [draw_comp_incl_impl_int]
      have hchB : draw_comp_children fuel ["comp_b"]
          { all_needs := gCyc, proc_impl_interfaces := pI,
            proc_used_interfaces := pU } = none := by
        rw [draw_comp_children]
        have hlook : lookupNeed gCyc "comp_b" = some needB := by rfl
        simp only [hlook]
        rw [if_pos (by left; rfl)]
        have hsub : (!needB.consists_of.isEmpty) = true := rfl
        rw [hsub, (ih pI pU).2]
      simp only [needA, gCyc] at hchB ⊢
      simp [hchB]
    · rw [draw_comp_incl_impl_int]
      have hchA : draw_comp_children fuel ["comp_a"]
          { all_needs := gCyc, proc_impl_interfaces := pI,
            proc_used_interfaces := pU } = none := by
        rw [draw_comp_children]
        have hlook : lookupNeed gCyc "comp_a" = some needA := by rfl
        simp only [hlook]
        rw [if_pos (by left; rfl)]
        have hsub : (!needA.consists_of.isEmpty) = true := rfl
        rw [hsub, (ih pI pU).1]
      simp only [needB, gCyc] at hchA ⊢
      simp [hchA]

/-! #### Claim C2: external components and the secondary fixed point -/

theorem mem_enqueue_used (visited pi : List String) :
    ∀ (used : List String) (qr : List String × List String) (u : String),
      u ∈ (enqueue_used visited pi used qr).1 → u ∈ qr.1 ∨ u ∈ used := by
  intro used
  induction used with
  | nil => intro qr u h; exact Or.inl h
  | cons u₀ rest ih =>
    intro qr u h
    rw [enqueue_used, List.foldl_cons] at h
    have h' := ih _ u (by rw [enqueue_used]; exact h)
    rcases h' with h' | h'
    · by_cases hc : (!(visited.contains u₀) && !(pi.contains u₀)) = true
      · rw [if_pos hc] at h'
        rcases List.mem_append.mp h' with h'' | h''
        · exact Or.inl h''
        · exact Or.inr (by simp [List.mem_singleton.mp h''])
      · rw [if_neg hc] at h'
        exact Or.inl h'
    · exact Or.inr (List.mem_cons_of_mem _ h')

/-- C2 counterexample: the claim says the fixed point never adds an external
component to the secondary-component set, but on `gExt` the external
implementer of the secondary interface I2 ends up in that set (the source
adds the component before testing externality). -/
theorem C2_claim_counterexample :
    ∃ st' : SecState,
      collect_secondary_loop 10 gExt ["comp_c1"] ["iface_i1"] c2init =
        some st' ∧
      "comp__baselibs_x" ∈ st'.secondary_components ∧
      is_external_baselib "comp__baselibs_x" = true := by
  refine ⟨{ secondary_components := ["comp__baselibs_x"],
            visited_interfaces := ["iface_i2"],
            interfaces_to_process := [],
            all_related_interfaces := ["iface_i1", "iface_i2"] }, ?_, ?_, ?_⟩
  · decide
  · decide
  · decide

/-- C2 (amended): the fixed point may add an external component to the
secondary-component set (it is displayed), but it never enqueues the
interfaces used by an external component: every interface the inner loop
appends to the queue is used by some non-external implementing component of
the interface being visited. -/
theorem C2_external_chain_breaking :
    ∀ (g : Graph) (pc pi visited comps secondary queue related : List String)
      (u : String),
      u ∈ (collect_impl_comps g pc pi visited comps secondary queue
          related).2.1 →
      u ∈ queue ∨ ∃ c ∈ comps, is_external_baselib c = false ∧
        u ∈ get_interface_from_component (needOf g c) "uses" g := by
  intro g pc pi visited comps
  induction comps with
  | nil => intro secondary queue related u h; exact Or.inl h
  | cons c rest ih =>
    intro secondary queue related u h
    rw [collect_impl_comps] at h
    by_cases hg : (!(pc.contains c) && (lookupNeed g c).isSome) = true
    · rw [if_pos hg] at h
      by_cases hx : is_external_baselib c = true
      · rw [if_pos hx] at h
        rcases ih _ _ _ u h with h' | ⟨c', hc', hext, hu⟩
        · exact Or.inl h'
        · exact Or.inr ⟨c', List.mem_cons_of_mem _ hc', hext, hu⟩
      · rw [if_neg hx] at h
        rcases ih _ _ _ u h with h' | ⟨c', hc', hext, hu⟩
        · rcases mem_enqueue_used visited pi _ _ u h' with h'' | h''
          · exact Or.inl h''
          · exact Or.inr ⟨c, List.mem_cons_self _ _,
              (by simpa using hx), h''⟩
        · exact Or.inr ⟨c', List.mem_cons_of_mem _ hc', hext, hu⟩
    · rw [if_neg hg] at h
      rcases ih _ _ _ u h with h' | ⟨c', hc', hext, hu⟩
      · exact Or.inl h'
      · exact Or.inr ⟨c', List.mem_cons_of_mem _ hc', hext, hu⟩

/-- C2 witness at a concrete input. -/
theorem C2_external_chain_breaking_witness :
    "iface_i2" ∈ ([] : List String) ∨
      ∃ c ∈ ["comp_c1"], is_external_baselib c = false ∧
        "iface_i2" ∈ get_interface_from_component (needOf gExt c) "uses" gExt :=
  C2_external_chain_breaking gExt [] ["iface_i1"] [] ["comp_c1"] [] [] []
    "iface_i2" (by decide)

/-! #### Claim C3: idempotence of the interface structural blocks -/

/-- C3 (code bug): with the shared registries of `c3_state0` (interface I0
recorded as used, no implementing component), the first
`_process_used_interfaces` run emits I0's structural block once and registers
the interface in the implemented-interfaces registry — yet a second run over
the same closure with the same registries emits the block again (total count
2), because the registered empty list fails the source's
`len(proc_impl_interfaces[iface]) > 0` check.  This contradicts the claim and
the source's own comment that the entry "marks the interface as processed to
avoid duplicate generation". -/
theorem C3_duplicate_block_emission :
    ((process_used_interfaces needC0 [] c3_state0 [] []).2.1.count
        (gen_interface_element "iface_i0" gNoImpl true) = 1) ∧
    (regHasKey (process_used_interfaces needC0 [] c3_state0 []
        []).1.proc_impl_interfaces "iface_i0" = true) ∧
    (regGet (process_used_interfaces needC0 [] c3_state0 []
        []).1.proc_impl_interfaces "iface_i0" = []) ∧
    ((process_used_interfaces needC0 []
        (process_used_interfaces needC0 [] c3_state0 [] []).1
        (process_used_interfaces needC0 [] c3_state0 [] []).2.1 []).2.1.count
        (gen_interface_element "iface_i0" gNoImpl true) = 2) := by
  refine ⟨?_, ?_, ?_, ?_⟩ <;> decide

/-! #### Claim C6: Feature User actor edges -/

theorem string_eq_of_data {s t : String} (h : s.data = t.data) : s = t := by
  cases s
  cases t
  exact congrArg String.mk h

theorem feature_user_line_data (g : Graph) (i : String) :
    (feature_user_line g i).data =
      "Feature_User -d-> ".data ++ (needOf g i).id.data ++ " : use ".data := by
  simp [feature_user_line, gen_link_text, get_alias, featureUserNeed,
    String.data_append, List.append_assoc]

theorem implements_line_data (g : Graph) (c i : String) :
    (implements_line g c i).data =
      (needOf g c).id.data ++ " -u-> ".data ++ (needOf g i).id.data ++
        " : implements ".data := by
  simp [implements_line, gen_link_text, get_alias, String.data_append,
    List.append_assoc]

theorem feature_user_line_inj {g : Graph} {a b : String}
    (h : feature_user_line g a = feature_user_line g b) :
    (needOf g a).id = (needOf g b).id := by
  have hd := congrArg String.data h
  rw [feature_user_line_data, feature_user_line_data] at hd
  exact string_eq_of_data
    (List.append_cancel_left (List.append_cancel_right hd))

theorem feature_user_line_ne_implements_line (g : Graph) (a c i : String) :
    feature_user_line g a ≠ implements_line g c i := by
  intro h
  have h₁ : (feature_user_line g a).data.reverse[1]? = some 'e' := by
    rw [feature_user_line_data, List.reverse_append,
      List.getElem?_append_left (by decide)]
    rfl
  have h₂ : (implements_line g c i).data.reverse[1]? = some 's' := by
    rw [implements_line_data, List.reverse_append,
      List.getElem?_append_left (by decide)]
    rfl
  rw [h] at h₁
  rw [h₁] at h₂
  simp at h₂

theorem needOf_id (g : Graph) (i : String) (hid : ∀ p ∈ g, p.2.id = p.1)
    (h : (lookupNeed g i).isSome = true) : (needOf g i).id = i := by
  unfold lookupNeed at h
  unfold needOf lookupNeed
  cases hf : g.find? (fun p => p.1 = i) with
  | none =>
    simp at h
    rcases h with ⟨n, hmem⟩
    have hcontra := List.find?_eq_none.mp hf _ hmem
    simp at hcontra
  | some p =>
    have hmem := List.mem_of_find?_eq_some hf
    have hp := List.find?_some hf
    simp only [decide_eq_true_eq] at hp
    simpa [hp] using hid p hmem

theorem mem_build_links (need : Need) (g : Graph) (orig : List String)
    (implComp : Registry) :
    ∀ (ifaces : List String) (lt : List String) (x : String),
      x ∈ build_links need g orig ifaces implComp lt ↔
        x ∈ lt ∨ ∃ i ∈ ifaces, regGet implComp i ≠ [] ∧
          ((i ∈ orig ∧ x = feature_user_line g i) ∨
           ∃ c ∈ (regGet implComp i).filter
              (fun c => (lookupNeed g c).isSome), x = implements_line g c i) := by
  intro ifaces
  induction ifaces with
  | nil =>
    intro lt x
    rw [build_links]
    simp
  | cons i rest ih =>
    intro lt x
    rw [build_links]
    by_cases hne : regGet implComp i ≠ []
    · rw [if_pos hne]
      rw [ih]
      by_cases horig : orig.contains i
      · rw [if_pos horig]
        have horig' : i ∈ orig := by simpa using horig
        constructor
        · rintro (hx | hx)
          · rcases List.mem_append.mp hx with hx | hx
            · rcases List.mem_append.mp hx with hx | hx
              · exact Or.inl hx
              · exact Or.inr ⟨i, List.mem_cons_self _ _, hne,
                  Or.inl ⟨horig', List.mem_singleton.mp hx⟩⟩
            · rcases List.mem_map.mp hx with ⟨c, hc, rfl⟩
              exact Or.inr ⟨i, List.mem_cons_self _ _, hne,
                Or.inr ⟨c, hc, rfl⟩⟩
          · rcases hx with ⟨i', hi', hne', hdisj⟩
            exact Or.inr ⟨i', List.mem_cons_of_mem _ hi', hne', hdisj⟩
        · rintro (hx | ⟨i', hi', hne', hdisj⟩)
          · exact Or.inl (List.mem_append.mpr
              (Or.inl (List.mem_append.mpr (Or.inl hx))))
          · rcases List.mem_cons.mp hi' with rfl | hi''
            · rcases hdisj with ⟨_, rfl⟩ | ⟨c, hc, rfl⟩
              · exact Or.inl (List.mem_append.mpr (Or.inl
                  (List.mem_append.mpr (Or.inr (List.mem_singleton.mpr rfl)))))
              · exact Or.inl (List.mem_append.mpr (Or.inr
                  (List.mem_map.mpr ⟨c, hc, rfl⟩)))
            · exact Or.inr ⟨i', hi'', hne', hdisj⟩
      · rw [if_neg horig]
        have horig' : i ∉ orig := by simpa using horig
        constructor
        · rintro (hx | hx)
          · rcases List.mem_append.mp hx with hx | hx
            · exact Or.inl hx
            · rcases List.mem_map.mp hx with ⟨c, hc, rfl⟩
              exact Or.inr ⟨i, List.mem_cons_self _ _, hne,
                Or.inr ⟨c, hc, rfl⟩⟩
          · rcases hx with ⟨i', hi', hne', hdisj⟩
            exact Or.inr ⟨i', List.mem_cons_of_mem _ hi', hne', hdisj⟩
        · rintro (hx | ⟨i', hi', hne', hdisj⟩)
          · exact Or.inl (List.mem_append.mpr (Or.inl hx))
          · rcases List.mem_cons.mp hi' with rfl | hi''
            · rcases hdisj with ⟨hmem, rfl⟩ | ⟨c, hc, rfl⟩
              · exact absurd hmem horig'
              · exact Or.inl (List.mem_append.mpr (Or.inr
                  (List.mem_map.mpr ⟨c, hc, rfl⟩)))
            · exact Or.inr ⟨i', hi'', hne', hdisj⟩
    · rw [if_neg hne]
      rw [ih]
      push_neg at hne
      constructor
      · rintro (hx | ⟨i', hi', hne', hdisj⟩)
        · exact Or.inl hx
        · exact Or.inr ⟨i', List.mem_cons_of_mem _ hi', hne', hdisj⟩
      · rintro (hx | ⟨i', hi', hne', hdisj⟩)
        · exact Or.inl hx
        · rcases List.mem_cons.mp hi' with rfl | hi''
          · exact absurd hne hne'
          · exact Or.inr ⟨i', hi'', hne', hdisj⟩

/-- C6 (amended): for a well-formed graph (each record's id is its key,
every interface of the mapping resolves), `_build_links` emits a
`Feature User` use edge to an interface iff it is one of the feature's
original (primary) interfaces AND its implementer mapping holds a non-empty
eligible list; a primary interface without eligible implementers gets no
actor edge.  In the §8 scenario (C1 implements I1 and uses I2, non-external
C2 implements I2) the full feature drawing emits exactly one
`Feature User → I1` edge plus the two implements edges. -/
theorem C6_feature_user_edge_iff :
    (∀ (need : Need) (g : Graph) (orig ifaces : List String)
        (implComp : Registry) (iface : String),
        (∀ p ∈ g, p.2.id = p.1) →
        (∀ i ∈ ifaces, (lookupNeed g i).isSome = true) →
        (lookupNeed g iface).isSome = true →
        (feature_user_line g iface ∈
            build_links need g orig ifaces implComp [] ↔
          (iface ∈ ifaces ∧ iface ∈ orig ∧ regGet implComp iface ≠ []))) ∧
    draw_full_feature 20 needF gScen =
      some ["", "actor \"Feature User\" as Feature_User ",
        "Feature_User -d-> iface_i1 : use ",
        "comp_c1 -u-> iface_i1 : implements ",
        "comp_c2 -u-> iface_i2 : implements ", ""] := by
  refine ⟨?_, rfl⟩
  intro need g orig ifaces implComp iface hid hall hif
  rw [mem_build_links]
  constructor
  · rintro (hx | ⟨i', hi', hne', hdisj⟩)
    · simp at hx
    · rcases hdisj with ⟨horig, heq⟩ | ⟨c, hc, heq⟩
      · have hids := feature_user_line_inj heq
        have h₁ := needOf_id g iface hid hif
        have h₂ := needOf_id g i' hid (hall i' hi')
        rw [h₁, h₂] at hids
        subst hids
        exact ⟨hi', horig, hne'⟩
      · exact absurd heq (feature_user_line_ne_implements_line g iface c i')
  · rintro ⟨hmem, horig, hne⟩
    exact Or.inr ⟨iface, hmem, hne, Or.inl ⟨horig, rfl⟩⟩

/-- C6 witness at a concrete input. -/
theorem C6_feature_user_edge_iff_witness :
    feature_user_line gScen "iface_i1" ∈
        build_links needF gScen ["iface_i1"] ["iface_i1", "iface_i2"]
          [("iface_i1", ["comp_c1"]), ("iface_i2", ["comp_c2"])] [] ↔
      ("iface_i1" ∈ ["iface_i1", "iface_i2"] ∧ "iface_i1" ∈ ["iface_i1"] ∧
        regGet [("iface_i1", ["comp_c1"]), ("iface_i2", ["comp_c2"])]
          "iface_i1" ≠ []) :=
  C6_feature_user_edge_iff.1 needF gScen ["iface_i1"]
    ["iface_i1", "iface_i2"]
    [("iface_i1", ["comp_c1"]), ("iface_i2", ["comp_c2"])] "iface_i1"
    (by decide) (by decide) (by decide)

/-- C6 counterexample to the claim as stated: with a primary interface I0
that no component implements, `_build_links` emits no `Feature User` edge at
all, so "an actor edge iff the interface is primary" fails in the
left-to-right-completeness direction. -/
theorem C6_claim_counterexample :
    ¬ (feature_user_line gNoImpl "iface_i0" ∈
          build_links needF gNoImpl ["iface_i0"] ["iface_i0"] [] [] ↔
        "iface_i0" ∈ ["iface_i0"]) := by
  intro h
  have hmem := h.mpr (by decide)
  rw [build_links] at hmem
  simp [regGet] at hmem
  rw [build_links] at hmem
  simp at hmem

/-! #### Claim C5: deterministic rendering -/

theorem strLt_asymm_false {a b : String} (h₁ : strLt a b = true)
    (h₂ : strLt b a = true) : False := by
  have h₃ := strLt_asymm h₁
  rw [h₂] at h₃
  exact absurd h₃ (by simp)

theorem lex_step_total {α β : Type} [BEq α] [LawfulBEq α]
    (ltA : α → α → Bool) (leB : β → β → Bool)
    (hltA : ∀ a b, ltA a b = true ∨ ltA b a = true ∨ a = b)
    (hleB : ∀ x y, leB x y = true ∨ leB y x = true) :
    ∀ x y : α × β, lex_step ltA leB x y = true ∨ lex_step ltA leB y x = true := by
  intro x y
  rcases hltA x.1 y.1 with h | h | h
  · exact Or.inl (by simp [lex_step, h])
  · exact Or.inr (by simp [lex_step, h])
  · rcases hleB x.2 y.2 with h₂ | h₂
    · exact Or.inl (by simp [lex_step, h, h₂])
    · exact Or.inr (by simp [lex_step, h, h₂])

theorem lex_step_trans {α β : Type} [BEq α] [LawfulBEq α]
    (ltA : α → α → Bool) (leB : β → β → Bool)
    (hltA : ∀ a b c, ltA a b = true → ltA b c = true → ltA a c = true)
    (hleB : ∀ x y z, leB x y = true → leB y z = true → leB x z = true) :
    ∀ x y z : α × β, lex_step ltA leB x y = true →
      lex_step ltA leB y z = true → lex_step ltA leB x z = true := by
  intro x y z hxy hyz
  simp only [lex_step, Bool.or_eq_true, Bool.and_eq_true, beq_iff_eq]
    at hxy hyz ⊢
  rcases hxy with h₁ | ⟨h₁, h₂⟩
  · rcases hyz with h₃ | ⟨h₃, h₄⟩
    · exact Or.inl (hltA _ _ _ h₁ h₃)
    · refine Or.inl ?_
      rw [← h₃]
      exact h₁
  · rcases hyz with h₃ | ⟨h₃, h₄⟩
    · refine Or.inl ?_
      rw [h₁]
      exact h₃
    · exact Or.inr ⟨h₁.trans h₃, hleB _ _ _ h₂ h₄⟩

theorem lex_step_antisymm {α β : Type} [BEq α] [LawfulBEq α]
    (ltA : α → α → Bool) (leB : β → β → Bool)
    (hltA : ∀ a b, ltA a b = true → ltA b a = true → False)
    (hleB : ∀ x y, leB x y = true → leB y x = true → x = y) :
    ∀ x y : α × β, lex_step ltA leB x y = true →
      lex_step ltA leB y x = true → x = y := by
  intro x y hxy hyx
  simp only [lex_step, Bool.or_eq_true, Bool.and_eq_true, beq_iff_eq]
    at hxy hyx
  rcases hxy with h₁ | ⟨h₁, h₂⟩
  · rcases hyx with h₃ | ⟨h₃, h₄⟩
    · exact (hltA _ _ h₁ h₃).elim
    · rw [h₃] at h₁
      exact (hltA _ _ h₁ h₁).elim
  · rcases hyx with h₃ | ⟨h₃, h₄⟩
    · rw [h₁] at h₃
      exact (hltA _ _ h₃ h₃).elim
    · exact Prod.ext h₁ (hleB _ _ h₂ h₄)

theorem strLt_trichotomy (a b : String) :
    strLt a b = true ∨ strLt b a = true ∨ a = b := strLt_total a b

theorem key_le_total : ∀ a b : String × String × String × String,
    key_le a b = true ∨ key_le b a = true := by
  intro a b
  unfold key_le
  refine lex_step_total _ _ strLt_trichotomy ?_ a b
  intro x y
  refine lex_step_total _ _ strLt_trichotomy ?_ x y
  intro x y
  exact lex_step_total _ _ strLt_trichotomy strLe_total x y

theorem key_le_trans : ∀ a b c : String × String × String × String,
    key_le a b = true → key_le b c = true → key_le a c = true := by
  intro a b c
  unfold key_le
  refine lex_step_trans _ _ (fun a b c => @strLt_trans a b c) ?_ a b c
  intro x y z
  refine lex_step_trans _ _ (fun a b c => @strLt_trans a b c) ?_ x y z
  intro x y z
  exact lex_step_trans _ _ (fun a b c => @strLt_trans a b c)
    (fun a b c => @strLe_trans a b c) x y z

theorem key_le_antisymm : ∀ a b : String × String × String × String,
    key_le a b = true → key_le b a = true → a = b := by
  intro a b
  unfold key_le
  refine lex_step_antisymm _ _ (fun a b => @strLt_asymm_false a b)
    ?_ a b
  intro x y
  refine lex_step_antisymm _ _ (fun a b => @strLt_asymm_false a b)
    ?_ x y
  intro x y
  exact lex_step_antisymm _ _ (fun a b => @strLt_asymm_false a b)
    (fun a b => @strLe_antisymm a b) x y

instance : IsTotal ClassNode node_ler :=
  ⟨fun a b => strLe_total a.name b.name⟩

instance : IsTrans ClassNode node_ler :=
  ⟨fun _ _ _ hab hbc => strLe_trans hab hbc⟩

instance : IsTotal (String × String × String × String) key_ler :=
  ⟨key_le_total⟩

instance : IsTrans (String × String × String × String) key_ler :=
  ⟨fun a b c => key_le_trans a b c⟩

instance : IsAntisymm (String × String × String × String) key_ler :=
  ⟨key_le_antisymm⟩

instance : IsTotal Relation rel_ler :=
  ⟨fun a b => key_le_total (rkey a) (rkey b)⟩

instance : IsTrans Relation rel_ler :=
  ⟨fun a b c => key_le_trans (rkey a) (rkey b) (rkey c)⟩

theorem RelationKind.value_inj {k₁ k₂ : RelationKind}
    (h : k₁.value = k₂.value) : k₁ = k₂ := by
  cases k₁ <;> cases k₂ <;> simp_all [RelationKind.value]

theorem render_relation_line_key (m : AliasMap) (r₁ r₂ : Relation)
    (h : rkey r₁ = rkey r₂) :
    render_relation_line m r₁ = render_relation_line m r₂ := by
  rcases r₁ with ⟨s₁, d₁, k₁, l₁⟩
  rcases r₂ with ⟨s₂, d₂, k₂, l₂⟩
  simp only [rkey, Prod.mk.injEq] at h
  obtain ⟨hs, hd, hk, hl⟩ := h
  subst hs
  subst hd
  have hk' : k₁ = k₂ := RelationKind.value_inj hk
  subst hk'
  unfold render_relation_line
  dsimp only
  cases m.getItem s₁ with
  | error e => rfl
  | ok p =>
    rcases p with ⟨sa, m₁⟩
    dsimp only
    cases m₁.getItem d₁ with
    | error e => rfl
    | ok q =>
      rcases q with ⟨ta, m₂⟩
      dsimp only
      cases l₁ with
      | none =>
        cases l₂ with
        | none => rfl
        | some v =>
          simp only [Option.getD] at hl
          rw [← hl]
          simp
      | some u =>
        cases l₂ with
        | none =>
          simp only [Option.getD] at hl
          rw [hl]
          simp
        | some v =>
          simp only [Option.getD] at hl
          rw [hl]

theorem render_relations_key :
    ∀ (l₁ l₂ : List Relation) (m : AliasMap),
      l₁.map rkey = l₂.map rkey →
      render_relations m l₁ = render_relations m l₂ := by
  intro l₁
  induction l₁ with
  | nil =>
    intro l₂ m h
    cases l₂ with
    | nil => rfl
    | cons r t => simp at h
  | cons r₁ t₁ ih =>
    intro l₂ m h
    cases l₂ with
    | nil => simp at h
    | cons r₂ t₂ =>
      simp only [List.map_cons, List.cons.injEq] at h
      obtain ⟨hk, ht⟩ := h
      rw [render_relations, render_relations,
        render_relation_line_key m r₁ r₂ hk]
      cases render_relation_line m r₂ with
      | error e => rfl
      | ok p =>
        rcases p with ⟨la, m'⟩
        dsimp only
        rw [ih t₂ m' ht]

theorem sorted_nodup_names_eq :
    ∀ (l₁ l₂ : List ClassNode), List.Perm l₁ l₂ →
      List.Sorted node_ler l₁ → List.Sorted node_ler l₂ →
      (l₁.map ClassNode.name).Nodup → l₁ = l₂ := by
  intro l₁
  induction l₁ with
  | nil =>
    intro l₂ hp _ _ _
    exact (hp.symm.eq_nil).symm
  | cons a t₁ ih =>
    intro l₂ hp hs₁ hs₂ hn
    cases l₂ with
    | nil => exact absurd hp.eq_nil (by simp)
    | cons b t₂ =>
      have hab : a = b := by
        by_contra hne
        have ha2 : a ∈ b :: t₂ := hp.subset (List.mem_cons_self _ _)
        have hb1 : b ∈ a :: t₁ := hp.symm.subset (List.mem_cons_self _ _)
        have ha2' : a ∈ t₂ := by
          rcases List.mem_cons.mp ha2 with h | h
          · exact absurd h hne
          · exact h
        have hb1' : b ∈ t₁ := by
          rcases List.mem_cons.mp hb1 with h | h
          · exact absurd h.symm hne
          · exact h
        have h₁ : node_ler a b := (List.sorted_cons.mp hs₁).1 b hb1'
        have h₂ : node_ler b a := (List.sorted_cons.mp hs₂).1 a ha2'
        have hname : a.name = b.name := strLe_antisymm h₁ h₂
        have hmem : a.name ∈ t₁.map ClassNode.name :=
          List.mem_map.mpr ⟨b, hb1', hname.symm⟩
        have hnc : (a.name :: t₁.map ClassNode.name).Nodup := by
          simpa only [List.map_cons] using hn
        exact (List.nodup_cons.mp hnc).1 hmem
      subst hab
      have hnc : (a.name :: t₁.map ClassNode.name).Nodup := by
        simpa only [List.map_cons] using hn
      rw [ih t₂ hp.cons_inv (List.sorted_cons.mp hs₁).2
        (List.sorted_cons.mp hs₂).2 (List.nodup_cons.mp hnc).2]

theorem sorted_rkeys_eq (rels₁ rels₂ : List Relation)
    (hperm : List.Perm rels₁ rels₂) :
    (List.insertionSort rel_ler rels₁).map rkey =
      (List.insertionSort rel_ler rels₂).map rkey := by
  refine List.eq_of_perm_of_sorted (r := key_ler) ?_ ?_ ?_
  · exact ((List.perm_insertionSort _ _).map rkey).trans
      ((hperm.map rkey).trans
        (((List.perm_insertionSort _ _).map rkey).symm))
  · exact (List.sorted_insertionSort rel_ler rels₁).map _
      (fun a b hab => hab)
  · exact (List.sorted_insertionSort rel_ler rels₂).map _
      (fun a b hab => hab)

/-- C5: two diagrams whose `classes` dicts are equal as finite maps
(permuted entry lists with distinct names) and whose relation lists are
permutations render to identical PlantUML text: classes are emitted sorted
by name, relations sorted by `(src, dst, kind.value, label or "")`, and
relations with equal sort keys render to equal lines. -/
theorem C5_render_deterministic (d₁ d₂ : ClassDiagram)
    (hc : List.Perm d₁.classes d₂.classes)
    (hr : List.Perm d₁.relations d₂.relations)
    (hn : (d₁.classes.map (fun p => p.2.name)).Nodup) :
    render d₁ = render d₂ := by
  have hvals : List.Perm (d₁.classes.map (fun p => p.2))
      (d₂.classes.map (fun p => p.2)) := hc.map _
  have hperm : List.Perm
      (List.insertionSort node_ler (d₁.classes.map (fun p => p.2)))
      (List.insertionSort node_ler (d₂.classes.map (fun p => p.2))) :=
    (List.perm_insertionSort _ _).trans
      (hvals.trans ((List.perm_insertionSort _ _).symm))
  have hnames : ((List.insertionSort node_ler
      (d₁.classes.map (fun p => p.2))).map ClassNode.name).Nodup := by
    have hp := (List.perm_insertionSort node_ler
      (d₁.classes.map (fun p => p.2))).map ClassNode.name
    rw [hp.nodup_iff]
    simpa [List.map_map, Function.comp] using hn
  have hcls : List.insertionSort node_ler (d₁.classes.map (fun p => p.2)) =
      List.insertionSort node_ler (d₂.classes.map (fun p => p.2)) :=
    sorted_nodup_names_eq _ _ hperm
      (List.sorted_insertionSort node_ler _)
      (List.sorted_insertionSort node_ler _) hnames
  have hkeys := sorted_rkeys_eq d₁.relations d₂.relations hr
  unfold render
  dsimp only
  rw [hcls]
  cases hrc : render_classes AliasMap.empty
      (List.insertionSort node_ler (d₂.classes.map (fun p => p.2))) with
  | error e => rfl
  | ok p =>
    rcases p with ⟨ls₁, m₁⟩
    dsimp only
    rw [render_relations_key (List.insertionSort rel_ler d₁.relations)
      (List.insertionSort rel_ler d₂.relations) m₁ hkeys]

/-- C5 witness at a concrete input: the same two-class diagram with entries
and relations given in opposite orders. -/
theorem C5_render_deterministic_witness :
    render { classes := [("A", ⟨"A", none, []⟩), ("B", ⟨"B", none, []⟩)],
             relations := [⟨"A", "B", RelationKind.ASSOCIATION, none⟩,
                           ⟨"B", "A", RelationKind.DEPENDENCY, some "x"⟩] } =
    render { classes := [("B", ⟨"B", none, []⟩), ("A", ⟨"A", none, []⟩)],
             relations := [⟨"B", "A", RelationKind.DEPENDENCY, some "x"⟩,
                           ⟨"A", "B", RelationKind.ASSOCIATION, none⟩] } :=
  C5_render_deterministic _ _ (by decide) (by decide) (by decide)

/-! #### Claim C9: the need graph is never mutated -/

theorem process_interfaces_graph :
    ∀ (ifaces : List String) (relation : String) (need : Need)
      (s : DrawState) (lt : List String),
      (process_interfaces ifaces relation need s lt).1.all_needs =
        s.all_needs := by
  intro ifaces
  induction ifaces with
  | nil => intro relation need s lt; rfl
  | cons iface rest ih =>
    intro relation need s lt
    rw [process_interfaces]
    cases lookupNeed s.all_needs iface with
    | none => exact ih relation need s lt
    | some ifn =>
      dsimp only
      split <;> (try split) <;> (try split) <;> exact ih relation need _ _

theorem process_impl_loop_graph :
    ∀ (ifaces : List String) (need : Need) (s : DrawState)
      (st : List String),
      (process_impl_loop ifaces need s st).1.all_needs = s.all_needs := by
  intro ifaces
  induction ifaces with
  | nil => intro need s st; rfl
  | cons iface rest ih =>
    intro need s st
    rw [process_impl_loop]
    cases lookupNeed s.all_needs iface with
    | none => exact ih need s st
    | some n =>
      dsimp only
      split
      · exact ih need _ _
      · exact ih need s st

theorem process_used_loop_graph :
    ∀ (items : List (String × List String)) (need : Need)
      (li : List String) (s : DrawState) (st lt : List String),
      (process_used_loop items need li s st lt).1.all_needs =
        s.all_needs := by
  intro items
  induction items with
  | nil => intro need li s st lt; rfl
  | cons p rest ih =>
    intro need li s st lt
    rcases p with ⟨iface, comps⟩
    rw [process_used_loop]
    dsimp only
    split
    · exact ih need li s _ _
    · split
      · split
        · exact ih need li _ _ _
        · exact ih need li s _ _
      · exact ih need li _ _ _

theorem process_used_interfaces_graph (need : Need) (li : List String)
    (s : DrawState) (st lt : List String) :
    (process_used_interfaces need li s st lt).1.all_needs = s.all_needs :=
  process_used_loop_graph s.proc_used_interfaces need li s st lt

theorem draw_comp_children_graph (fuel : Nat)
    (hcomp : ∀ (need : Need) (s : DrawState) (wb : Bool)
      (r : List String × List String × DrawState),
      draw_comp_incl_impl_int fuel need s wb = some r →
        r.2.2.all_needs = s.all_needs) :
    ∀ (subs : List String) (s : DrawState)
      (r : List String × List String × DrawState),
      draw_comp_children fuel subs s = some r →
        r.2.2.all_needs = s.all_needs := by
  intro subs
  induction subs with
  | nil =>
    intro s r h
    rw [draw_comp_children] at h
    simp only [Option.some.injEq] at h
    rw [← h]
  | cons need_inc rest ih =>
    intro s r h
    rw [draw_comp_children] at h
    cases hl : lookupNeed s.all_needs need_inc with
    | none =>
      rw [hl] at h
      exact ih s r h
    | some curr =>
      rw [hl] at h
      dsimp only at h
      by_cases hty : curr.type = "comp" ∨ curr.type = "comp_arc_sta"
      · rw [if_pos hty] at h
        cases hdc : draw_comp_incl_impl_int fuel curr s
            (!curr.consists_of.isEmpty) with
        | none => rw [hdc] at h; exact absurd h (by simp)
        | some p =>
          rcases p with ⟨st₁, lt₁, s'⟩
          rw [hdc] at h
          dsimp only at h
          cases hch : draw_comp_children fuel rest s' with
          | none => rw [hch] at h; exact absurd h (by simp)
          | some q =>
            rcases q with ⟨st₂, lt₂, s''⟩
            rw [hch] at h
            dsimp only at h
            simp only [Option.some.injEq] at h
            rw [← h]
            exact (ih s' (st₂, lt₂, s'') hch).trans
              (hcomp curr s (!curr.consists_of.isEmpty) (st₁, lt₁, s') hdc)
      · rw [if_neg hty] at h
        exact ih s r h

theorem draw_comp_graph :
    ∀ (fuel : Nat) (need : Need) (s : DrawState) (wb : Bool)
      (r : List String × List String × DrawState),
      draw_comp_incl_impl_int fuel need s wb = some r →
        r.2.2.all_needs = s.all_needs := by
  intro fuel
  induction fuel with
  | zero =>
    intro need s wb r h
    rw [draw_comp_incl_impl_int] at h
    exact absurd h (by simp)
  | succ fuel ih =>
    intro need s wb r h
    rw [draw_comp_incl_impl_int] at h
    dsimp only at h
    cases hres : (if wb then draw_comp_children fuel
        (need.includes ++ need.consists_of) s else some ([], [], s)) with
    | none => rw [hres] at h; exact absurd h (by simp)
    | some p =>
      rcases p with ⟨subSt, subLk, s₁⟩
      rw [hres] at h
      dsimp only at h
      simp only [Option.some.injEq] at h
      have hs₁ : s₁.all_needs = s.all_needs := by
        by_cases hw : wb = true
        · rw [if_pos hw] at hres
          exact draw_comp_children_graph fuel ih _ s (subSt, subLk, s₁) hres
        · rw [if_neg hw] at hres
          simp only [Option.some.injEq, Prod.mk.injEq] at hres
          rw [← hres.2.2]
      rw [← h]
      exact ((process_interfaces_graph _ "uses" need _ _).trans
        (process_interfaces_graph _ "implements" need s₁ subLk)).trans hs₁

theorem process_impl_interfaces_graph (fuel : Nat) (need : Need)
    (s : DrawState) (st : List String) (r : DrawState × List String)
    (h : process_impl_interfaces fuel need s st = some r) :
    r.1.all_needs = s.all_needs := by
  unfold process_impl_interfaces at h
  cases hdi : draw_impl_interface fuel need s.all_needs [] with
  | none =>
    rw [hdi] at h
    exact absurd h (by simp)
  | some local_impl =>
    rw [hdi] at h
    dsimp only at h
    simp only [Option.some.injEq] at h
    rw [← h]
    exact process_impl_loop_graph local_impl need s st

theorem draw_module_children_graph (fuel : Nat) :
    ∀ (subs : List String) (s : DrawState)
      (r : List String × List String × DrawState),
      draw_module_children fuel subs s = some r →
        r.2.2.all_needs = s.all_needs := by
  intro subs
  induction subs with
  | nil =>
    intro s r h
    rw [draw_module_children] at h
    simp only [Option.some.injEq] at h
    rw [← h]
  | cons need_inc rest ih =>
    intro s r h
    rw [draw_module_children] at h
    cases hl : lookupNeed s.all_needs need_inc with
    | none =>
      rw [hl] at h
      exact ih s r h
    | some curr =>
      rw [hl] at h
      dsimp only at h
      by_cases hty : curr.type = "comp" ∨ curr.type = "mod"
      · rw [if_pos hty] at h
        cases hdc : draw_comp_incl_impl_int fuel curr s
            (!curr.consists_of.isEmpty) with
        | none => rw [hdc] at h; exact absurd h (by simp)
        | some p =>
          rcases p with ⟨st₁, lt₁, s'⟩
          rw [hdc] at h
          dsimp only at h
          cases hch : draw_module_children fuel rest s' with
          | none => rw [hch] at h; exact absurd h (by simp)
          | some q =>
            rcases q with ⟨st₂, lt₂, s''⟩
            rw [hch] at h
            dsimp only at h
            simp only [Option.some.injEq] at h
            rw [← h]
            exact (ih s' (st₂, lt₂, s'') hch).trans
              (draw_comp_graph fuel curr s (!curr.consists_of.isEmpty)
                (st₁, lt₁, s') hdc)
      · rw [if_neg hty] at h
        exact ih s r h

theorem draw_module_graph (fuel : Nat) (need : Need) (s : DrawState)
    (r : List String × List String × DrawState)
    (h : draw_module fuel need s = some r) :
    r.2.2.all_needs = s.all_needs := by
  unfold draw_module at h
  cases hdi : draw_impl_interface fuel need s.all_needs [] with
  | none =>
    rw [hdi] at h
    exact absurd h (by simp)
  | some local_impl =>
    rw [hdi] at h
    dsimp only at h
    cases hpi : process_impl_interfaces fuel need s [] with
    | none =>
      rw [hpi] at h
      exact absurd h (by simp)
    | some p =>
      rcases p with ⟨s₁, st₁⟩
      rw [hpi] at h
      dsimp only at h
      cases hch : draw_module_children fuel need.includes s₁ with
      | none =>
        rw [hch] at h
        exact absurd h (by simp)
      | some q =>
        rcases q with ⟨subSt, subLt, s₂⟩
        rw [hch] at h
        dsimp only at h
        simp only [Option.some.injEq] at h
        rw [← h]
        exact ((process_used_interfaces_graph need local_impl s₂ _
            subLt).trans
          ((draw_module_children_graph fuel need.includes s₁
            (subSt, subLt, s₂) hch).trans
            (process_impl_interfaces_graph fuel need s [] (s₁, st₁) hpi)))

theorem collect_modules_loop_graph (fuel : Nat) :
    ∀ (modules : List String) (s : DrawState)
      (st lt pm : List String)
      (r : DrawState × List String × List String × List String),
      collect_modules_loop fuel modules s st lt pm = some r →
        r.1.all_needs = s.all_needs := by
  intro modules
  induction modules with
  | nil =>
    intro s st lt pm r h
    rw [collect_modules_loop] at h
    simp only [Option.some.injEq] at h
    rw [← h]
  | cons m rest ih =>
    intro s st lt pm r h
    rw [collect_modules_loop] at h
    by_cases hpm : pm.contains m = true
    · rw [if_pos hpm] at h
      exact ih s st lt pm r h
    · rw [if_neg hpm] at h
      cases hdm : draw_module fuel (needOf s.all_needs m) s with
      | none =>
        rw [hdm] at h
        exact absurd h (by simp)
      | some p =>
        rcases p with ⟨tmp, lt', s'⟩
        rw [hdm] at h
        dsimp only at h
        exact (ih s' _ _ _ r h).trans
          (draw_module_graph fuel (needOf s.all_needs m) s
            (tmp, lt', s') hdm)

theorem collect_graph (fuel : Nat) (need : Need) (s : DrawState)
    (interfacelist : List String) (impl_comp : Registry)
    (proc_modules : List String) (st lt : List String)
    (r : List String × List String × DrawState × Registry × List String)
    (h : collect_interfaces_and_modules fuel need s interfacelist impl_comp
      proc_modules st lt = some r) :
    r.2.2.1.all_needs = s.all_needs := by
  unfold collect_interfaces_and_modules at h
  dsimp only at h
  cases hsec : collect_secondary_loop fuel s.all_needs
      (setUnion [] need.consists_of) (setUnion [] interfacelist)
      { secondary_components := [], visited_interfaces := [],
        interfaces_to_process :=
          (setUnion [] need.consists_of).foldl
            (fun (p : List String × List String) comp_id =>
              if (lookupNeed s.all_needs comp_id).isSome = true then
                (setUnion p.1 (get_interface_from_component
                    (needOf s.all_needs comp_id) "uses" s.all_needs),
                  setUnion p.2 (get_interface_from_component
                    (needOf s.all_needs comp_id) "uses" s.all_needs))
              else p)
            ([], setUnion [] interfacelist) |>.1,
        all_related_interfaces :=
          (setUnion [] need.consists_of).foldl
            (fun (p : List String × List String) comp_id =>
              if (lookupNeed s.all_needs comp_id).isSome = true then
                (setUnion p.1 (get_interface_from_component
                    (needOf s.all_needs comp_id) "uses" s.all_needs),
                  setUnion p.2 (get_interface_from_component
                    (needOf s.all_needs comp_id) "uses" s.all_needs))
              else p)
            ([], setUnion [] interfacelist) |>.2 } with
  | none =>
    rw [hsec] at h
    exact absurd h (by simp)
  | some sec =>
    rw [hsec] at h
    dsimp only at h
    cases hml : collect_modules_loop fuel
        (modules_to_draw_of s.all_needs
          (setUnion (setUnion (setUnion [] need.consists_of)
            sec.secondary_components)
            (primary_iface_implementers s.all_needs
              (setUnion [] need.consists_of) (setUnion [] interfacelist))))
        s st lt proc_modules with
    | none =>
      rw [hml] at h
      exact absurd h (by simp)
    | some p =>
      rcases p with ⟨s', st', lt', pm'⟩
      rw [hml] at h
      dsimp only at h
      simp only [Option.some.injEq] at h
      rw [← h]
      exact collect_modules_loop_graph fuel _ s st lt proc_modules
        (s', st', lt', pm') hml

/-- C9: the host-supplied need graph is read but never mutated: every
drawing-pipeline operation that threads the per-request state returns a
state whose `all_needs` component is exactly the input one; only the
processed-interface registries and the text accumulators change. -/
theorem C9_graph_immutability :
    (∀ (ifaces : List String) (relation : String) (need : Need)
        (s : DrawState) (lt : List String),
        (process_interfaces ifaces relation need s lt).1.all_needs =
          s.all_needs) ∧
    (∀ (need : Need) (li : List String) (s : DrawState)
        (st lt : List String),
        (process_used_interfaces need li s st lt).1.all_needs =
          s.all_needs) ∧
    (∀ (fuel : Nat) (need : Need) (s : DrawState) (st : List String)
        (r : DrawState × List String),
        process_impl_interfaces fuel need s st = some r →
          r.1.all_needs = s.all_needs) ∧
    (∀ (fuel : Nat) (need : Need) (s : DrawState) (wb : Bool)
        (r : List String × List String × DrawState),
        draw_comp_incl_impl_int fuel need s wb = some r →
          r.2.2.all_needs = s.all_needs) ∧
    (∀ (fuel : Nat) (need : Need) (s : DrawState)
        (r : List String × List String × DrawState),
        draw_module fuel need s = some r →
          r.2.2.all_needs = s.all_needs) ∧
    (∀ (fuel : Nat) (need : Need) (s : DrawState) (il : List String)
        (ic : Registry) (pm st lt : List String)
        (r : List String × List String × DrawState × Registry ×
          List String),
        collect_interfaces_and_modules fuel need s il ic pm st lt =
            some r →
          r.2.2.1.all_needs = s.all_needs) :=
  ⟨process_interfaces_graph,
   fun need li s st lt => process_used_interfaces_graph need li s st lt,
   fun fuel need s st r h =>
     process_impl_interfaces_graph fuel need s st r h,
   fun fuel need s wb r h => draw_comp_graph fuel need s wb r h,
   fun fuel need s r h => draw_module_graph fuel need s r h,
   fun fuel need s il ic pm st lt r h =>
     collect_graph fuel need s il ic pm st lt r h⟩

/-- C9 witness at a concrete input: the collect phase on the §8 scenario
graph leaves the graph slot of the state untouched. -/
theorem C9_graph_immutability_witness :
    ((["actor"], ([] : List String),
      ({ all_needs := gScen, proc_impl_interfaces := [],
         proc_used_interfaces := [] } : DrawState),
      ([("iface_i1", ["comp_c1"]), ("iface_i2", ["comp_c2"])] : Registry),
      ([] : List String)) :
        List String × List String × DrawState × Registry ×
          List String).2.2.1.all_needs =
      ({ all_needs := gScen, proc_impl_interfaces := [],
         proc_used_interfaces := [] } : DrawState).all_needs :=
  C9_graph_immutability.2.2.2.2.2 20 needF
    { all_needs := gScen, proc_impl_interfaces := [],
      proc_used_interfaces := [] }
    ["iface_i1"] [] [] ["actor"] []
    (["actor"], [],
      { all_needs := gScen, proc_impl_interfaces := [],
        proc_used_interfaces := [] },
      [("iface_i1", ["comp_c1"]), ("iface_i2", ["comp_c2"])], []) rfl
